import Mathlib

/-!
Verification development for the T4P mesh-clean Blender add-on
(`t4p_clean` package): a shallow embedding of its mesh data model,
checksum service, intersection detector, island grouping, the
non-manifold repair pipeline and the self-intersection repair engine,
together with theorems settling the specification claims.

Conventions of the embedding:
* Vertex coordinates are exact rationals (the raw-fraction type `Q`
  below); the Python sources use IEEE doubles, and every concrete input
  used in a theorem stays far from rounding boundaries so the exact and
  floating evaluations agree.
* Host (Blender) mesh-kernel primitives that the sources call through
  `bpy.ops` / `bmesh.ops` / `mathutils` are not part of the repository;
  each such primitive is modelled from the specification text and its
  doc comment says so.
* Python exceptions are values of `PyErr`; fallible code returns
  `Except PyErr _`.
-/

set_option maxRecDepth 4000
set_option maxHeartbeats 4000000

namespace T4P

/-! ### Exact rational scalars

Coordinates, distances and timestamps are exact rationals.  `Q` is a
raw fraction — an integer numerator over a positive integer
denominator, with no gcd normalization — so that every arithmetic
operation and comparison reduces inside the Lean kernel (Mathlib's `ℚ`
normalizes through `Nat.gcd`, which blocks kernel evaluation).  All
comparison operators below are value-correct whenever denominators are
positive; every constructor used in this file keeps denominators
positive. -/

structure Q where
  num : ℤ
  den : ℤ := 1
  deriving Repr, DecidableEq

instance : OfNat Q n := ⟨⟨n, 1⟩⟩

instance : Neg Q := ⟨fun a => ⟨-a.num, a.den⟩⟩

instance : Add Q := ⟨fun a b => ⟨a.num * b.den + b.num * a.den, a.den * b.den⟩⟩

instance : Sub Q := ⟨fun a b => ⟨a.num * b.den - b.num * a.den, a.den * b.den⟩⟩

instance : Mul Q := ⟨fun a b => ⟨a.num * b.num, a.den * b.den⟩⟩

instance : LE Q := ⟨fun a b => a.num * b.den ≤ b.num * a.den⟩

instance : LT Q := ⟨fun a b => a.num * b.den < b.num * a.den⟩

instance (a b : Q) : Decidable (a ≤ b) := Int.decLe _ _

instance (a b : Q) : Decidable (a < b) := Int.decLt _ _

def qabs (a : Q) : Q := ⟨|a.num|, a.den⟩

def qmin (a b : Q) : Q := if a ≤ b then a else b

def qmax (a b : Q) : Q := if a ≤ b then b else a

instance : Min Q := ⟨qmin⟩

instance : Max Q := ⟨qmax⟩

def qsq (a : Q) : Q := a * a

/-- `⌊a⌋` for a raw fraction with positive denominator. -/
def qfloor (a : Q) : ℤ := Int.fdiv a.num a.den

/-! ### Python numeric helpers -/

/-- Python's `round` on an exact value: round half to even (banker's
rounding), as used by `int(round(c * q))` in `mesh_checksum_fast`. -/
def pyRound (x : Q) : ℤ :=
  let f : ℤ := qfloor x
  let r : ℤ := x.num - f * x.den
  -- the fractional part is `r / x.den`; compare it with `1/2` exactly
  if 2 * r < x.den then f
  else if x.den < 2 * r then f + 1
  else if f % 2 = 0 then f else f + 1

/-- `array.array('i', _).tobytes()` encoding of one element: a signed
32-bit integer, two's complement, little endian, as four byte values. -/
def int32LEBytes (z : ℤ) : List ℕ :=
  let u : ℕ := (z % 4294967296).toNat
  [u % 256, u / 256 % 256, u / 65536 % 256, u / 16777216 % 256]

/-! ### BLAKE2b-128 (the `hashlib.blake2b(digest_size=16)` hash used by
the checksum service), RFC 7693, keyless. 64-bit words are `ℕ` values
reduced modulo `2 ^ 64`. -/

def mask64 : ℕ := 18446744073709551615

def add64 (a b : ℕ) : ℕ := (a + b) % 18446744073709551616

def xor64 (a b : ℕ) : ℕ := a ^^^ b

def rotr64 (x r : ℕ) : ℕ := ((x >>> r) ||| (x <<< (64 - r))) &&& mask64

def blake2bIV : List ℕ :=
  [0x6a09e667f3bcc908, 0xbb67ae8584caa73b, 0x3c6ef372fe94f82b,
   0xa54ff53a5f1d36f1, 0x510e527fade682d1, 0x9b05688c2b3e6c1f,
   0x1f83d9abfb41bd6b, 0x5be0cd19137e2179]

def blake2bSigma : List (List ℕ) :=
  [[0, 1, 2, 3, 4, 5, 6, 7, 8, 9, 10, 11, 12, 13, 14, 15],
   [14, 10, 4, 8, 9, 15, 13, 6, 1, 12, 0, 2, 11, 7, 5, 3],
   [11, 8, 12, 0, 5, 2, 15, 13, 10, 14, 3, 6, 7, 1, 9, 4],
   [7, 9, 3, 1, 13, 12, 11, 14, 2, 6, 5, 10, 4, 0, 15, 8],
   [9, 0, 5, 7, 2, 4, 10, 15, 14, 1, 11, 12, 6, 8, 3, 13],
   [2, 12, 6, 10, 0, 11, 8, 3, 4, 13, 7, 5, 15, 14, 1, 9],
   [12, 5, 1, 15, 14, 13, 4, 10, 0, 7, 6, 3, 9, 2, 8, 11],
   [13, 11, 7, 14, 12, 1, 3, 9, 5, 0, 15, 4, 8, 6, 2, 10],
   [6, 15, 14, 9, 11, 3, 0, 8, 12, 2, 13, 7, 1, 4, 10, 5],
   [10, 2, 8, 4, 7, 6, 1, 5, 15, 11, 9, 14, 3, 12, 13, 0]]

/-- The BLAKE2b mixing function `G` acting on the 16-word work vector. -/
def blakeG (v : List ℕ) (a b c d x y : ℕ) : List ℕ :=
  let va := add64 (add64 (v.getD a 0) (v.getD b 0)) x
  let vd := rotr64 (xor64 (v.getD d 0) va) 32
  let vc := add64 (v.getD c 0) vd
  let vb := rotr64 (xor64 (v.getD b 0) vc) 24
  let va := add64 (add64 va vb) y
  let vd := rotr64 (xor64 vd va) 16
  let vc := add64 vc vd
  let vb := rotr64 (xor64 vb vc) 63
  ((((v.set a va).set b vb).set c vc).set d vd)

/-- One of the 12 BLAKE2b rounds, with message words `m` and message
schedule row `s`. -/
def blakeRound (m : List ℕ) (v : List ℕ) (s : List ℕ) : List ℕ :=
  let mi := fun i => m.getD (s.getD i 0) 0
  let v := blakeG v 0 4 8 12 (mi 0) (mi 1)
  let v := blakeG v 1 5 9 13 (mi 2) (mi 3)
  let v := blakeG v 2 6 10 14 (mi 4) (mi 5)
  let v := blakeG v 3 7 11 15 (mi 6) (mi 7)
  let v := blakeG v 0 5 10 15 (mi 8) (mi 9)
  let v := blakeG v 1 6 11 12 (mi 10) (mi 11)
  let v := blakeG v 2 7 8 13 (mi 12) (mi 13)
  let v := blakeG v 3 4 9 14 (mi 14) (mi 15)
  v

/-- BLAKE2b compression function `F`: state `h` (8 words), message block
`m` (16 words), byte counter `t`, final-block flag `f`. -/
def blakeCompress (h : List ℕ) (m : List ℕ) (t : ℕ) (f : Bool) : List ℕ :=
  let v := h ++ blake2bIV
  let v := v.set 12 (xor64 (v.getD 12 0) (t % 18446744073709551616))
  let v := v.set 13 (xor64 (v.getD 13 0) (t / 18446744073709551616))
  let v := if f then v.set 14 (xor64 (v.getD 14 0) mask64) else v
  let v := (List.range 12).foldl
    (fun v i => blakeRound m v (blake2bSigma.getD (i % 10) [])) v
  (List.range 8).map (fun i => xor64 (h.getD i 0) (xor64 (v.getD i 0) (v.getD (i + 8) 0)))

/-- Read 16 little-endian 64-bit words from a 128-byte block. -/
def blockWords (block : List ℕ) : List ℕ :=
  (List.range 16).map (fun i =>
    (List.range 8).foldr (fun j acc => acc * 256 + block.getD (8 * i + j) 0) 0)

/-- Split the zero-padded message into 128-byte blocks. -/
def blakeBlocks (msg : List ℕ) : List (List ℕ) :=
  if msg.length = 0 then [List.replicate 128 0]
  else
    let padded := msg ++ List.replicate ((128 - msg.length % 128) % 128) 0
    (List.range ((msg.length + 127) / 128)).map
      (fun i => (padded.drop (128 * i)).take 128)

def blakeProcess (h : List ℕ) (blocks : List (List ℕ)) (t ll : ℕ) : List ℕ :=
  match blocks with
  | [] => h
  | [b] => blakeCompress h (blockWords b) ll true
  | b :: rest => blakeProcess (blakeCompress h (blockWords b) (t + 128) false) rest (t + 128) ll

/-- Serialize state words to bytes, little endian. -/
def wordsToBytes (ws : List ℕ) : List ℕ :=
  ws.flatMap (fun w => (List.range 8).map (fun j => w / 256 ^ j % 256))

/-- `hashlib.blake2b(digest_size=16)` over a byte sequence: the 16
digest bytes. -/
def blake2b128 (msg : List ℕ) : List ℕ :=
  let h0 := blake2bIV.set 0 (xor64 (blake2bIV.getD 0 0) 0x01010010)
  let h := blakeProcess h0 (blakeBlocks msg) 0 msg.length
  (wordsToBytes h).take 16

/-- `hexdigest()`: the 32 hex digits (as numbers `0..15`, high nibble of
each byte first) of the 128-bit digest. -/
def blake2b128Hex (msg : List ℕ) : List ℕ :=
  (blake2b128 msg).flatMap (fun b => [b / 16, b % 16])

/-! ### Mesh data model

Vertices carry 3D rational positions; faces are ordered vertex-index
loops with the Blender selection and hide flags the sources read.
Edges are derived from face boundaries (the spec's own data model:
"Edge (derived, not separately stored in the source)").  Deletions in
this functional embedding rebuild the lists, so every element present
is valid (`is_valid` is identically true). -/

abbrev Vec3 := Q × Q × Q

structure BMFace where
  vs : List ℕ
  select : Bool := false
  hide : Bool := false
  deriving Repr, DecidableEq

structure BMesh where
  verts : List Vec3
  faces : List BMFace
  deriving Repr, DecidableEq

/-- A freshly created face: deselected and visible. -/
def mkFace (vs : List ℕ) : BMFace := { vs := vs }

/-- `mesh_checksum_fast(obj, decimals=3)` (main.py): quantize every
vertex coordinate with `int(round(c * 10 ** decimals))`, serialize the
quantized coordinates followed by each polygon's vertex loop terminated
by a `-1` sentinel as little-endian `int32`s, and hash with
BLAKE2b-128; the result is the hexdigest (as its 32 hex digits). -/
def quantizedCoords (m : BMesh) (decimals : ℕ := 3) : List ℤ :=
  (m.verts.flatMap (fun v => [v.1, v.2.1, v.2.2])).map
    (fun c => pyRound (c * (⟨10 ^ decimals, 1⟩ : Q)))

def mesh_checksum_fast (m : BMesh) (decimals : ℕ := 3) : List ℕ :=
  let coords_q : List ℤ := quantizedCoords m decimals
  let poly_idx : List ℤ := m.faces.flatMap (fun f => f.vs.map Int.ofNat ++ [-1])
  blake2b128Hex (coords_q.flatMap int32LEBytes ++ poly_idx.flatMap int32LEBytes)

/-! ### Exact rational 3D geometry -/

def vsub (a b : Vec3) : Vec3 := (a.1 - b.1, a.2.1 - b.2.1, a.2.2 - b.2.2)

def vadd (a b : Vec3) : Vec3 := (a.1 + b.1, a.2.1 + b.2.1, a.2.2 + b.2.2)

def vsmul (k : Q) (a : Vec3) : Vec3 := (k * a.1, k * a.2.1, k * a.2.2)

def vdot (a b : Vec3) : Q := a.1 * b.1 + a.2.1 * b.2.1 + a.2.2 * b.2.2

def vcross (a b : Vec3) : Vec3 :=
  (a.2.1 * b.2.2 - a.2.2 * b.2.1,
   a.2.2 * b.1 - a.1 * b.2.2,
   a.1 * b.2.1 - a.2.1 * b.1)

def vlenSq (a : Vec3) : Q := vdot a a

/-- Sign of the orientation determinant of `d` against the plane of
`a b c` (positive, zero or negative). -/
def orient3d (a b c d : Vec3) : Q := vdot (vcross (vsub b a) (vsub c a)) (vsub d a)

def sign (q : Q) : ℤ := if q < 0 then -1 else if 0 < q then 1 else 0

/-- 2D orientation after dropping one coordinate axis (`0`, `1` or `2`). -/
def orient2dAxis (ax : ℕ) (a b c : Vec3) : Q :=
  let p : Vec3 → Q × Q := fun v =>
    if ax = 0 then (v.2.1, v.2.2) else if ax = 1 then (v.1, v.2.2) else (v.1, v.2.1)
  let pa := p a; let pb := p b; let pc := p c
  (pb.1 - pa.1) * (pc.2 - pa.2) - (pb.2 - pa.2) * (pc.1 - pa.1)

/-- Axis to drop when projecting the plane of `a b c` to 2D: the axis of
the normal's largest absolute component. -/
def dominantAxis (a b c : Vec3) : ℕ :=
  let n := vcross (vsub b a) (vsub c a)
  let nx := qabs n.1; let ny := qabs n.2.1; let nz := qabs n.2.2
  if nx ≥ ny ∧ nx ≥ nz then 0 else if ny ≥ nz then 1 else 2

/-- 2D point-in-triangle (boundary included) after dropping axis `ax`. -/
def pointInTri2d (ax : ℕ) (p a b c : Vec3) : Bool :=
  let s1 := sign (orient2dAxis ax a b p)
  let s2 := sign (orient2dAxis ax b c p)
  let s3 := sign (orient2dAxis ax c a p)
  (s1 ≥ 0 ∧ s2 ≥ 0 ∧ s3 ≥ 0) ∨ (s1 ≤ 0 ∧ s2 ≤ 0 ∧ s3 ≤ 0)

/-- 2D segment intersection (touching counts) after dropping axis `ax`. -/
def segSeg2d (ax : ℕ) (p q a b : Vec3) : Bool :=
  let d1 := sign (orient2dAxis ax p q a)
  let d2 := sign (orient2dAxis ax p q b)
  let d3 := sign (orient2dAxis ax a b p)
  let d4 := sign (orient2dAxis ax a b q)
  if d1 * d2 < 0 ∧ d3 * d4 < 0 then true
  else if d1 = 0 ∧ d2 = 0 ∧ d3 = 0 ∧ d4 = 0 then
    -- collinear: compare 1D projections on the dominant direction
    let pr : Vec3 → Q := fun v =>
      if ax = 0 then (if qabs (q.2.2 - p.2.2) ≤ qabs (q.2.1 - p.2.1) then v.2.1 else v.2.2)
      else if ax = 1 then (if qabs (q.2.2 - p.2.2) ≤ qabs (q.1 - p.1) then v.1 else v.2.2)
      else (if qabs (q.2.1 - p.2.1) ≤ qabs (q.1 - p.1) then v.1 else v.2.1)
    max (min (pr p) (pr q)) (min (pr a) (pr b)) ≤
      min (max (pr p) (pr q)) (max (pr a) (pr b))
  else
    (d1 = 0 ∧ pointSeg ax a p q) ∨
    (d2 = 0 ∧ pointSeg ax b p q) ∨
    (d3 = 0 ∧ pointSeg ax p a b) ∨
    (d4 = 0 ∧ pointSeg ax q a b)
where
  /-- Collinear point-on-segment test in the projection. -/
  pointSeg (ax : ℕ) (x a b : Vec3) : Bool :=
    let p : Vec3 → Q × Q := fun v =>
      if ax = 0 then (v.2.1, v.2.2) else if ax = 1 then (v.1, v.2.2) else (v.1, v.2.1)
    let px := p x; let pa := p a; let pb := p b
    min pa.1 pb.1 ≤ px.1 ∧ px.1 ≤ max pa.1 pb.1 ∧
      min pa.2 pb.2 ≤ px.2 ∧ px.2 ≤ max pa.2 pb.2

/-- Exact segment-versus-triangle intersection test (touching counts). -/
def segTriIsect (p q a b c : Vec3) : Bool :=
  let sp := sign (orient3d a b c p)
  let sq := sign (orient3d a b c q)
  if sp * sq > 0 then false
  else if sp = 0 ∧ sq = 0 then
    -- segment coplanar with the triangle
    let ax := dominantAxis a b c
    pointInTri2d ax p a b c ∨ pointInTri2d ax q a b c ∨
      segSeg2d ax p q a b ∨ segSeg2d ax p q b c ∨ segSeg2d ax p q c a
  else
    let s1 := sign (orient3d p q a b)
    let s2 := sign (orient3d p q b c)
    let s3 := sign (orient3d p q c a)
    (s1 ≥ 0 ∧ s2 ≥ 0 ∧ s3 ≥ 0) ∨ (s1 ≤ 0 ∧ s2 ≤ 0 ∧ s3 ≤ 0)

/-- Modelled from the spec: the host's exact triangle/triangle overlap
test (`isect_tri_tri_epsilon_v3` inside `BVHTree.overlap`), without the
floating-point epsilon slack; two triangles intersect when an edge of
one meets the other.  Every concrete mesh used below intersects (or
misses) by a margin far above the source's `1e-5` epsilon. -/
def triTriIsect (t u : Vec3 × Vec3 × Vec3) : Bool :=
  let (a, b, c) := t
  let (d, e, f) := u
  segTriIsect a b d e f ∨ segTriIsect b c d e f ∨ segTriIsect c a d e f ∨
    segTriIsect d e a b c ∨ segTriIsect e f a b c ∨ segTriIsect f d a b c

/-! ### Derived edges and tessellation -/

/-- Normalize an unordered vertex pair. -/
def edgeKey (a b : ℕ) : ℕ × ℕ := (min a b, max a b)

/-- The boundary edges of one face loop (consecutive pairs, cyclic). -/
def faceEdges (vs : List ℕ) : List (ℕ × ℕ) :=
  match vs with
  | [] => []
  | v0 :: _ =>
    (List.range vs.length).map (fun i =>
      edgeKey (vs.getD i v0) (vs.getD ((i + 1) % vs.length) v0))

/-- All derived edges of the mesh. -/
def meshEdges (m : BMesh) : List (ℕ × ℕ) :=
  (m.faces.flatMap (fun f => faceEdges f.vs)).dedup

/-- Indices of the faces containing edge `e` on their boundary. -/
def edgeLinkFaces (m : BMesh) (e : ℕ × ℕ) : List ℕ :=
  (List.range m.faces.length).filter
    (fun i => e ∈ faceEdges ((m.faces.getD i (mkFace [])).vs))

/-- Fan tessellation of one polygon loop into vertex-index triangles
(the shape Blender's loop triangles / `bmesh.ops.triangulate` produce;
a triangle tessellates to itself). -/
def fanTris (vs : List ℕ) : List (ℕ × ℕ × ℕ) :=
  match vs with
  | v0 :: v1 :: rest =>
    (List.range rest.length).map (fun i =>
      (v0, (if i = 0 then v1 else rest.getD (i - 1) v0), rest.getD i v0))
  | _ => []

/-- The tessellated triangles of the whole mesh, each tagged with the
index of the face it came from (Blender's loop-triangle table). -/
def meshTris (m : BMesh) : List (ℕ × (ℕ × ℕ × ℕ)) :=
  (List.range m.faces.length).flatMap (fun fi =>
    (fanTris ((m.faces.getD fi (mkFace [])).vs)).map (fun t => (fi, t)))

def vertCo (m : BMesh) (i : ℕ) : Vec3 := m.verts.getD i (0, 0, 0)

def triCoords (m : BMesh) (t : ℕ × ℕ × ℕ) : Vec3 × Vec3 × Vec3 :=
  (vertCo m t.1, vertCo m t.2.1, vertCo m t.2.2)

/-! ### Intersection detector -/

/-- The BVH epsilon used by both detector entry points
(`BVHTree.FromBMesh(bm, epsilon=0.00001)`). -/
def bvhEpsilon : Q := ⟨1, 100000⟩

/-- Axis-aligned bounding box of a triangle, inflated by the BVH
epsilon. -/
def triBox (m : BMesh) (t : ℕ × ℕ × ℕ) : Vec3 × Vec3 :=
  let (a, b, c) := triCoords m t
  ((min a.1 (min b.1 c.1) - bvhEpsilon,
    min a.2.1 (min b.2.1 c.2.1) - bvhEpsilon,
    min a.2.2 (min b.2.2 c.2.2) - bvhEpsilon),
   (max a.1 (max b.1 c.1) + bvhEpsilon,
    max a.2.1 (max b.2.1 c.2.1) + bvhEpsilon,
    max a.2.2 (max b.2.2 c.2.2) + bvhEpsilon))

/-- Axis-aligned box overlap (the same test `_bounding_boxes_intersect`
spells out in clean_intersections.py). -/
def boxesOverlap (boxA boxB : Vec3 × Vec3) : Bool :=
  let (minA, maxA) := boxA
  let (minB, maxB) := boxB
  maxA.1 ≥ minB.1 ∧ maxB.1 ≥ minA.1 ∧
    maxA.2.1 ≥ minB.2.1 ∧ maxB.2.1 ≥ minA.2.1 ∧
    maxA.2.2 ≥ minB.2.2 ∧ maxB.2.2 ≥ minA.2.2

/-- Two vertex-index triangles share at least one vertex index. -/
def trisShareVert (t u : ℕ × ℕ × ℕ) : Bool :=
  t.1 = u.1 ∨ t.1 = u.2.1 ∨ t.1 = u.2.2 ∨
    t.2.1 = u.1 ∨ t.2.1 = u.2.1 ∨ t.2.1 = u.2.2 ∨
    t.2.2 = u.1 ∨ t.2.2 = u.2.1 ∨ t.2.2 = u.2.2

/-- Modelled from the spec: the host's `tree.overlap(tree)` self-overlap
query (`mathutils.bvhtree`).  A pair of tessellated triangles is
reported when their epsilon-inflated bounding volumes overlap, the two
triangles do NOT share a vertex (the host skips shared-vertex pairs
when a tree is overlapped with itself — the spec's "accept it as a true
self-intersection UNLESS the two faces already share at least one
vertex"), and the triangles geometrically intersect. -/
def bvhSelfOverlapAccepts (m : BMesh) (t u : ℕ × (ℕ × ℕ × ℕ)) : Bool :=
  boxesOverlap (triBox m t.2) (triBox m u.2) ∧
    ¬trisShareVert t.2 u.2 ∧
    triTriIsect (triCoords m t.2) (triCoords m u.2)

/-- The face-index pairs produced by the self-overlap query. -/
def bvhSelfOverlap (m : BMesh) : List (ℕ × ℕ) :=
  let tris := meshTris m
  (List.range tris.length).flatMap (fun i =>
    ((List.range tris.length).filter (fun j =>
        i < j ∧ bvhSelfOverlapAccepts m (tris.getD i (0, 0, 0, 0)) (tris.getD j (0, 0, 0, 0)))).map
      (fun j => ((tris.getD i (0, 0, 0, 0)).1, (tris.getD j (0, 0, 0, 0)).1)))

/-- The set `{index for pair in overlap for index in pair}`, listed in
increasing face-index order (the sources only use it as a set). -/
def intersectingFaceIndices (m : BMesh) : List ℕ :=
  (List.range m.faces.length).filter
    (fun fi => (bvhSelfOverlap m).any (fun p => p.1 = fi ∨ p.2 = fi))

/-- `bmesh_get_intersecting_face_indices(bm)` (main.py): copies the
bmesh, builds the BVH over the copy, runs the self-overlap query, frees
the copy and returns the union of face indices of the reported pairs.
The function is embedded state-passing (input bmesh in, bmesh out) to
state its frame property: the returned bmesh is the untouched input. -/
def bmesh_get_intersecting_face_indices (bm : BMesh) : BMesh × List ℕ :=
  let bmCopy := bm
  (bm, intersectingFaceIndices bmCopy)

/-- `bmesh_check_self_intersect_object(bm)` (lib.py): identical
algorithm on a freed copy, with a lookup-table rebuild on the copy. -/
def bmesh_check_self_intersect_object (bm : BMesh) : BMesh × List ℕ :=
  let bmCopy := bm
  (bm, intersectingFaceIndices bmCopy)

/-! ### Connected-component grouper (flood fill with an explicit stack)

`_get_mesh_vertex_islands` (clean_non_manifold.py) and
`_get_selected_visible_face_islands` (clean_intersections.py) share one
loop shape: pop an element, skip it when already visited or not
eligible, otherwise record it and push its not-yet-visited eligible
neighbours.  The shape is embedded once, over element indices, an
adjacency function and an eligibility predicate.  The `fuel` argument
makes the recursion structural; `floodIslands` passes fuel that
provably dominates the loop's step count, so the cap is never hit. -/

/-- The inner `while stack:` worklist loop.  Returns the final visited
set and the island (in source order the stack is a Python list popped
from the tail; the traversal order does not affect any property proved
here). -/
def floodFrom (adj : ℕ → List ℕ) (valid : ℕ → Bool) :
    ℕ → List ℕ → Finset ℕ → List ℕ → Finset ℕ × List ℕ
  | 0, _, visited, island => (visited, island)
  | _ + 1, [], visited, island => (visited, island)
  | fuel + 1, x :: stack, visited, island =>
    if x ∈ visited ∨ valid x = false then
      floodFrom adj valid fuel stack visited island
    else
      floodFrom adj valid fuel
        (((adj x).filter (fun y => valid y ∧ y ∉ insert x visited)) ++ stack)
        (insert x visited) (island ++ [x])

/-- The outer `for element in bm.verts / bm.faces:` seeding loop. -/
def floodIslandsGo (adj : ℕ → List ℕ) (valid : ℕ → Bool) (fuel : ℕ) :
    List ℕ → Finset ℕ → List (List ℕ)
  | [], _ => []
  | x :: seeds, visited =>
    if valid x = true ∧ x ∉ visited then
      let r := floodFrom adj valid fuel [x] visited []
      if r.2 = [] then floodIslandsGo adj valid fuel seeds r.1
      else r.2 :: floodIslandsGo adj valid fuel seeds r.1
    else floodIslandsGo adj valid fuel seeds visited

/-- Flood-fill islands over elements `0 .. n-1`. -/
def floodIslands (adj : ℕ → List ℕ) (valid : ℕ → Bool) (n : ℕ) : List (List ℕ) :=
  floodIslandsGo adj valid ((n + 1) * (n + 1)) (List.range n) ∅

/-- Vertex adjacency via derived edges (`vert.link_edges` then
`edge.verts`). -/
def vertAdj (m : BMesh) (x : ℕ) : List ℕ :=
  (List.range m.verts.length).filter (fun y => y ≠ x ∧ edgeKey x y ∈ meshEdges m)

/-- A vertex index is eligible when it denotes a vertex of the mesh
(every element of this functional embedding is `is_valid`). -/
def vertValid (m : BMesh) (x : ℕ) : Bool := x < m.verts.length

/-- `_get_mesh_vertex_islands(bm)` (clean_non_manifold.py): vertex
islands over shared-edge adjacency, as lists of vertex indices. -/
def _get_mesh_vertex_islands (m : BMesh) : List (List ℕ) :=
  floodIslands (vertAdj m) (vertValid m) m.verts.length

/-- Face adjacency via shared derived edges (`face.edges` then
`edge.link_faces`). -/
def faceAdj (m : BMesh) (i : ℕ) : List ℕ :=
  (List.range m.faces.length).filter (fun j =>
    j ≠ i ∧ (faceEdges ((m.faces.getD i (mkFace [])).vs)).any
      (fun e => e ∈ faceEdges ((m.faces.getD j (mkFace [])).vs)))

/-- A face index is eligible for the selected-visible flood fill when it
denotes a face that is selected and not hidden (the source's
`face.select and not face.hide` filter, applied to seeds, pops and
pushes alike). -/
def faceSelValid (m : BMesh) (i : ℕ) : Bool :=
  i < m.faces.length ∧ (m.faces.getD i (mkFace [])).select ∧
    ¬(m.faces.getD i (mkFace [])).hide

/-- `_get_selected_visible_face_islands(bm)` (clean_intersections.py):
islands of selected, visible faces over shared-edge adjacency. -/
def _get_selected_visible_face_islands (m : BMesh) : List (List ℕ) :=
  floodIslands (faceAdj m) (faceSelValid m) m.faces.length


/-! ### Small-island deletion (`_delete_small_vertex_islands`) -/

/-- `max(len(island) for island in islands)` over the vertex islands. -/
def maxIslandSize (m : BMesh) : ℕ :=
  ((_get_mesh_vertex_islands m).map List.length).foldr max 0

/-- The `verts_to_delete` set: every vertex of an island strictly
smaller than `min_vertices` AND strictly smaller than the largest
island. -/
def smallIslandDeleteSet (m : BMesh) (min_vertices : ℕ) : List ℕ :=
  ((_get_mesh_vertex_islands m).filter
    (fun I => I.length < min_vertices ∧ I.length < maxIslandSize m)).flatten

/-- Modelled from the spec: the host's `bmesh.ops.delete(context="VERTS")`
primitive — remove the listed vertices, every face using one of them,
and compact the index space. -/
def deleteVertsByIndex (m : BMesh) (del : List ℕ) : BMesh :=
  let keep := (List.range m.verts.length).filter (fun i => i ∉ del)
  let newIndex : ℕ → ℕ := fun i => keep.indexOf i
  { verts := keep.map (vertCo m),
    faces := (m.faces.filter (fun f => f.vs.all (fun v => v ∉ del))).map
      (fun f => { f with vs := f.vs.map newIndex }) }

/-- `_delete_small_vertex_islands(bm, min_vertices)`
(clean_non_manifold.py): flood-fill the vertex islands and delete every
island that is both below the threshold and below the largest island's
size. -/
def _delete_small_vertex_islands (m : BMesh) (min_vertices : ℕ) : BMesh :=
  let islands := _get_mesh_vertex_islands m
  if islands = [] then m
  else
    let verts_to_delete := smallIslandDeleteSet m min_vertices
    if verts_to_delete = [] then m
    else deleteVertsByIndex m verts_to_delete

/-! ### Non-manifold repair pipeline (`clean_non_manifold.py`)

The pipeline drives a sequence of host mesh-kernel operators
(`bpy.ops.mesh.*`, `bmesh.ops.*`).  Those operators are external to the
repository; each is modelled from the specification text.  Every
selection-sensitive operator in the source is immediately preceded by a
`select_all(action="SELECT")` (or performs its own selection), so the
models act on the whole mesh and no persistent selection state is
threaded through the pipeline. -/

/-- `_triangulate_bmesh(bm)` (main.py): triangulate every face
(`bmesh.ops.triangulate` — host primitive modelled as fan
tessellation, which is exact on triangles). -/
def _triangulate_bmesh (m : BMesh) : BMesh :=
  { m with
    faces := m.faces.flatMap (fun f =>
      (fanTris f.vs).map (fun t =>
        { vs := [t.1, t.2.1, t.2.2], select := f.select, hide := f.hide })) }

/-- A vertex index appears in some face loop. -/
def vertInSomeFace (m : BMesh) (v : ℕ) : Bool :=
  m.faces.any (fun f => v ∈ f.vs)

/-- A vertex index touches some derived edge. -/
def vertOnSomeEdge (m : BMesh) (v : ℕ) : Bool :=
  (meshEdges m).any (fun e => v = e.1 ∨ v = e.2)

/-- Modelled from the spec ("classifies edges as wire / boundary /
multi-face … and vertices as touching any such edge"): the host's
`select_non_manifold(use_wire, use_boundary, use_multi_face, use_verts)`
plus `count_non_manifold_verts` (main.py).  A vertex is non-manifold
when it touches a derived edge whose link-face count differs from 2, or
touches no edge at all (wire edges cannot exist in the derived-edge
data model, so isolated vertices are the wire-adjacent residue). -/
def count_non_manifold_verts (m : BMesh) : ℕ :=
  ((List.range m.verts.length).filter (fun v =>
    (meshEdges m).any (fun e =>
      (v = e.1 ∨ v = e.2) ∧ (edgeLinkFaces m e).length ≠ 2) ∨
    ¬vertOnSomeEdge m v)).length

/-- Modelled from the spec ("Delete loose elements (vertices/edges with
no owning face)"): the host's `bpy.ops.mesh.delete_loose()`. -/
def meshDeleteLoose (m : BMesh) : BMesh :=
  deleteVertsByIndex m
    ((List.range m.verts.length).filter (fun v => ¬vertInSomeFace m v))

/-- Modelled from the spec ("classify a face as interior when every one
of its edges is shared by ≥ 2 other faces"): the host's
`select_interior_faces` + `delete(type="FACE")`
(`_delete_interior_faces`, clean_non_manifold.py). -/
def meshDeleteInteriorFaces (m : BMesh) : BMesh :=
  { m with
    faces := m.faces.filter (fun f =>
      ¬(f.vs ≠ [] ∧ (faceEdges f.vs).all
        (fun e => 3 ≤ (edgeLinkFaces m e).length))) }

/-- Boundary edges: derived edges with exactly one link face. -/
def boundaryEdges (m : BMesh) : List (ℕ × ℕ) :=
  (meshEdges m).filter (fun e => (edgeLinkFaces m e).length = 1)

/-- Walk a boundary loop starting from `start` at current vertex `cur`,
consuming unused boundary edges; returns the loop's vertices when the
walk closes. -/
def traceBoundaryLoop (edges : List (ℕ × ℕ)) :
    ℕ → ℕ → ℕ → List (ℕ × ℕ) → List ℕ → Option (List ℕ)
  | 0, _, _, _, _ => none
  | fuel + 1, start, cur, used, acc =>
    if cur = start then some acc
    else
      match edges.find? (fun e => e ∉ used ∧ (cur = e.1 ∨ cur = e.2)) with
      | none => none
      | some e =>
        traceBoundaryLoop edges fuel start
          (if cur = e.1 then e.2 else e.1) (e :: used) (acc ++ [if cur = e.1 then e.2 else e.1])

/-- Modelled from the spec ("Fill remaining holes (boundary-edge loops
with no upper bound on side count)"): the host's
`bpy.ops.mesh.fill_holes(sides=0)` — add one face per closed boundary
loop. -/
def meshFillHoles (m : BMesh) : BMesh :=
  let bes := boundaryEdges m
  let loops := bes.filterMap (fun e =>
    traceBoundaryLoop bes bes.length e.1 e.2 [e] [e.1, e.2])
  -- keep one loop per starting edge only when it is new (loops found
  -- from different edges of the same hole coincide as vertex sets)
  let fresh := loops.foldl (fun acc l =>
    if acc.any (fun l' => l.toFinset = List.toFinset l') then acc else acc ++ [l]) []
  { m with faces := m.faces ++ fresh.map (fun l => mkFace (l.dropLast)) }

/-- Modelled from the spec ("Dissolve degenerate edges (near-zero-length
…) within `merge_distance`"): the host's
`bmesh.ops.dissolve_degenerate(dist)` — repeatedly collapse an edge
shorter than `dist`, dropping faces that lose distinct corners. -/
def meshCollapseShortEdge (m : BMesh) (distSq : Q) : Option BMesh :=
  match (meshEdges m).find? (fun e =>
      vlenSq (vsub (vertCo m e.1) (vertCo m e.2)) < distSq) with
  | none => none
  | some e =>
    -- merge the higher index into the lower, then drop the dead vertex
    let keep := min e.1 e.2
    let dead := max e.1 e.2
    let collapsed := (m.faces.map (fun f =>
      { f with vs := f.vs.map (fun v => if v = dead then keep else v) })).filter
      (fun f => f.vs.Nodup ∧ 3 ≤ f.vs.length)
    some (deleteVertsByIndex { m with faces := collapsed } [dead])

def meshDissolveDegenerate : BMesh → Q → ℕ → BMesh
  | m, _, 0 => m
  | m, distSq, fuel + 1 =>
    match meshCollapseShortEdge m distSq with
    | none => m
    | some m' => meshDissolveDegenerate m' distSq fuel

/-- `_dissolve_degenerate_and_triangulate(bm, threshold)`
(clean_non_manifold.py): dissolve degenerate edges within the
threshold, then re-triangulate. -/
def _dissolve_degenerate_and_triangulate (m : BMesh) (threshold : Q) : BMesh :=
  _triangulate_bmesh
    (meshDissolveDegenerate m (threshold * threshold) (meshEdges m).length)

/-- Modelled from the spec ("Remove duplicate (double) vertices within
`merge_distance`" / "nearest-neighbor vertex merging within a
tolerance"): the host's `bpy.ops.mesh.remove_doubles(threshold)`.
Scanning vertices in index order, each vertex is redirected to the
first surviving earlier vertex within the tolerance; faces that lose
distinct corners are dropped. -/
def removeDoublesTarget (m : BMesh) (distSq : Q) : ℕ → List (ℕ × ℕ)
  | 0 => []
  | i + 1 =>
    let prev := removeDoublesTarget m distSq i
    let survivors := (List.range i).filter (fun j => (prev.lookup j).isNone)
    match survivors.find? (fun j =>
        vlenSq (vsub (vertCo m i) (vertCo m j)) ≤ distSq) with
    | none => prev
    | some j => (i, j) :: prev

def meshRemoveDoubles (m : BMesh) (threshold : Q) : BMesh :=
  let tgt := removeDoublesTarget m (threshold * threshold) m.verts.length
  let remap : ℕ → ℕ := fun v => (tgt.lookup v).getD v
  let merged := (m.faces.map (fun f => { f with vs := f.vs.map remap })).filter
    (fun f => f.vs.Nodup ∧ 3 ≤ f.vs.length)
  deleteVertsByIndex { m with faces := merged } (tgt.map (·.1))

/-- `_try_fix_manifold()` (clean_non_manifold.py): fill holes with any
side count, then select the remaining non-manifold vertices
(`use_wire=True, use_verts=True` — the spec's "wire + isolated") and
delete them outright. -/
def _try_fix_manifold (m : BMesh) : BMesh :=
  let m := meshFillHoles m
  deleteVertsByIndex m
    ((List.range m.verts.length).filter (fun v => ¬vertOnSomeEdge m v))

/-- The `while fix_non_manifold:` loop of `_make_manifold`: stop when
the non-manifold vertex count is zero or a round leaves the face count
unchanged.  `fuel` makes the recursion structural; the source's loop
has no intrinsic bound beyond face-count convergence, and every mesh
reaching this step in the theorems below exits on the first test. -/
def makeManifoldLoop : BMesh → ℕ → ℕ → BMesh
  | m, _, 0 => m
  | m, numFaces, fuel + 1 =>
    let m' := _try_fix_manifold m
    if m'.faces.length = numFaces then m'
    else makeManifoldLoop m' m'.faces.length fuel

/-- `_make_manifold(mesh)` (clean_non_manifold.py). -/
def _make_manifold (m : BMesh) : BMesh :=
  if count_non_manifold_verts m > 0 then
    makeManifoldLoop m m.faces.length (m.faces.length + m.verts.length + 1)
  else m

/-- Directed boundary segments of a face loop. -/
def faceDirectedEdges (vs : List ℕ) : List (ℕ × ℕ) :=
  match vs with
  | [] => []
  | v0 :: _ =>
    (List.range vs.length).map (fun i =>
      (vs.getD i v0, vs.getD ((i + 1) % vs.length) v0))

/-- Two faces traverse a shared edge consistently when their directed
occurrences of it are opposite. -/
def meshOrientationConsistent (m : BMesh) : Bool :=
  (meshEdges m).all (fun e =>
    match edgeLinkFaces m e with
    | [i, j] =>
      let di := faceDirectedEdges ((m.faces.getD i (mkFace [])).vs)
      let dj := faceDirectedEdges ((m.faces.getD j (mkFace [])).vs)
      ((e.1, e.2) ∈ di ∧ (e.2, e.1) ∈ dj) ∨ ((e.2, e.1) ∈ di ∧ (e.1, e.2) ∈ dj)
    | _ => true)

/-- Six times the signed volume enclosed by the (tessellated) mesh. -/
def signedVolume6 (m : BMesh) : Q :=
  ((meshTris m).map (fun t =>
    orient3d (0, 0, 0) (vertCo m t.2.1) (vertCo m t.2.2.1) (vertCo m t.2.2.2))).sum

def flipAllFaces (m : BMesh) : BMesh :=
  { m with faces := m.faces.map (fun f => { f with vs := f.vs.reverse }) }

/-- Modelled from the spec ("Unify face normals to a consistent outward
orientation"): the host's `bpy.ops.mesh.normals_make_consistent()`.  A
mesh whose faces already traverse every manifold edge oppositely is
flipped as a whole when its signed volume is negative and is otherwise
left untouched; propagation across an inconsistently oriented mesh is
host behaviour not needed by any theorem below and is modelled as the
identity. -/
def _unify_normals (m : BMesh) : BMesh :=
  if meshOrientationConsistent m then
    if signedVolume6 m < 0 then flipAllFaces m else m
  else m

/-- `_clean_object_non_manifold(obj, merge_distance,
delete_island_threshold)` (clean_non_manifold.py): the sequential
repair pipeline; returns `(changed, clean, worse)`. -/
def _clean_object_non_manifold (m : BMesh) (merge_distance : Q)
    (delete_island_threshold : ℕ) : Bool × Bool × Bool :=
  let checksum_before := mesh_checksum_fast m
  -- mode_set(EDIT); select_mode(VERT); select_all(SELECT); reveal()
  let m : BMesh := { m with faces := m.faces.map (fun f => { f with select := true, hide := false }) }
  let m := _triangulate_bmesh m
  let num_errors_before := count_non_manifold_verts m
  let m := meshDeleteLoose m
  let m := meshDeleteInteriorFaces m
  let m := meshFillHoles m
  let m := _delete_small_vertex_islands m delete_island_threshold
  let m := _dissolve_degenerate_and_triangulate m merge_distance
  let m := meshRemoveDoubles m merge_distance
  let m := _make_manifold m
  let m := _unify_normals m
  let num_errors_after := count_non_manifold_verts m
  let clean := num_errors_after = 0
  let worse := num_errors_before < num_errors_after
  let checksum_after := mesh_checksum_fast m
  let changed := checksum_after ≠ checksum_before
  (changed, clean, worse)

/-! ### Self-intersection repair engine (`clean_intersections.py`) -/

/-- Python exceptions that the embedded code can raise. -/
inductive PyErr where
  | typeError
  deriving Repr, DecidableEq

/-- Engine rounds, recorded in a run trace. -/
inductive EngStep where
  | splitRound
  | smoothRound
  | shrinkFattenAttempt
  deriving Repr, DecidableEq

/-- `select_faces(face_indices, mesh, bm)` (main.py:380): select the
faces with the given indices on the bmesh and flush the edit mesh.
The function takes three positional parameters. -/
def select_faces (face_indices : List ℕ) (mesh : BMesh) (bm : BMesh) : BMesh :=
  let _ := mesh  -- `bmesh.update_edit_mesh(mesh, ...)`
  { bm with faces := (List.range bm.faces.length).map (fun i =>
      let f := bm.faces.getD i (mkFace [])
      if i ∈ face_indices then { f with select := true } else f) }

/-- `bpy.ops.mesh.reveal(select=False)`: unhide everything without
selecting it. -/
def meshReveal (m : BMesh) : BMesh :=
  { m with faces := m.faces.map (fun f => { f with hide := false }) }

/-- The decidable rational form of
`prev_vector.angle(next_vector) < radians(15.0)`
(`_find_smallest_face_angle` / `_process_intersecting_face`): over the
reals, `angle u w < 15°` iff `cos (angle u w) > cos 15°` iff
`u·w > 0 ∧ 4 (u·w)² > (2 + √3) |u|² |w|²` iff, writing
`A := 4 (u·w)² − 2 |u|² |w|²` and `B := |u|² |w|²`,
`u·w > 0 ∧ A > 0 ∧ A² > 3 B²`. -/
def angleLt15 (u w : Vec3) : Bool :=
  let d := vdot u w
  let B := vlenSq u * vlenSq w
  let A := 4 * qsq d - 2 * B
  0 < d ∧ 0 < A ∧ 3 * qsq B < qsq A

/-- `_find_smallest_face_angle(face) < sharp_angle_threshold`: some
corner whose two incident direction vectors are longer than `1e-6` has
an angle below 15° (the smallest skipped-corner-free angle is below the
threshold exactly when some corner's angle is). -/
def faceHasSharpAngle (m : BMesh) (vs : List ℕ) : Bool :=
  (List.range vs.length).map (fun i =>
    let v := vertCo m (vs.getD i 0)
    let p := vertCo m (vs.getD ((i + vs.length - 1) % vs.length) 0)
    let n := vertCo m (vs.getD ((i + 1) % vs.length) 0)
    let u := vsub p v
    let w := vsub n v
    ((⟨1, 1000000000000⟩ : Q) < vlenSq u ∧ (⟨1, 1000000000000⟩ : Q) < vlenSq w ∧
      angleLt15 u w : Bool)) |>.any id

/-- The face's boundary edges as directed endpoint pairs in loop
order (`face.edges`). -/
def faceLoopEdges (vs : List ℕ) : List (ℕ × ℕ) :=
  match vs with
  | [] => []
  | v0 :: _ =>
    (List.range vs.length).map (fun i =>
      (vs.getD i v0, vs.getD ((i + 1) % vs.length) v0))

/-- `_collect_longest_edges(face)`: the face's two longest edges (by
length, descending, stable on ties like Python's `sort(reverse=True)`),
skipping edges of length at most `1e-6`; fewer than two eligible edges
yields none. -/
def _collect_longest_edges (m : BMesh) (vs : List ℕ) : List (ℕ × ℕ) :=
  let eds := (faceLoopEdges vs).filter (fun e =>
    (⟨1, 1000000000000⟩ : Q) < vlenSq (vsub (vertCo m e.1) (vertCo m e.2)))
  if eds.length < 2 then []
  else
    (eds.mergeSort (fun a b =>
      vlenSq (vsub (vertCo m b.1) (vertCo m b.2)) ≤
        vlenSq (vsub (vertCo m a.1) (vertCo m a.2)))).take 2

/-- Modelled from the spec ("subdivide each (insert one midpoint vertex
per edge, splitting the edge into two)"): the host's
`bmesh.ops.subdivide_edges(edges=[edge], cuts=1)` — append the midpoint
vertex and splice it into every face loop traversing the edge; returns
the new vertex index when the edge still exists. -/
def subdivideEdge (m : BMesh) (e : ℕ × ℕ) : BMesh × Option ℕ :=
  if (m.faces.any (fun f => edgeKey e.1 e.2 ∈ faceEdges f.vs)) then
    let mid := m.verts.length
    let splice : List ℕ → List ℕ := fun vs =>
      (List.range vs.length).flatMap (fun i =>
        let a := vs.getD i 0
        let b := vs.getD ((i + 1) % vs.length) 0
        if edgeKey a b = edgeKey e.1 e.2 then [a, mid] else [a])
    (⟨m.verts ++ [vsmul ⟨1, 2⟩ (vadd (vertCo m e.1) (vertCo m e.2))],
      m.faces.map (fun f =>
        if edgeKey e.1 e.2 ∈ faceEdges f.vs then { f with vs := splice f.vs } else f)⟩,
     some mid)
  else (m, none)

/-- `_subdivide_edges_and_collect_midpoints(bm, edges)`. -/
def _subdivide_edges_and_collect_midpoints (m : BMesh) (edges : List (ℕ × ℕ)) :
    BMesh × List ℕ :=
  edges.foldl (fun (acc : BMesh × List ℕ) e =>
    let (m', mid) := subdivideEdge acc.1 e
    (m', acc.2 ++ mid.toList)) (m, [])

/-- Split one face loop along the chord `a`-`b`. -/
def splitFaceAt (vs : List ℕ) (a b : ℕ) : List (List ℕ) :=
  let r := vs.rotateLeft (vs.indexOf a)
  let j := r.indexOf b
  [r.take (j + 1) ++ [a].tail, (r.drop j) ++ [a]]

/-- `_connect_midpoints_if_possible(bm, midpoint_vertices)`: when the
two midpoints are distinct, share a face and are not already joined by
an edge, the host's `bmesh.ops.connect_verts` splits each shared face
along the new chord (modelled from the spec: "connect them with a new
edge — this cuts the sliver into two"). -/
def _connect_midpoints_if_possible (m : BMesh) (mids : List ℕ) : BMesh × Bool :=
  match mids with
  | a :: b :: _ =>
    if a = b then (m, false)
    else if ¬(m.faces.any (fun f => a ∈ f.vs ∧ b ∈ f.vs)) then (m, false)
    else if edgeKey a b ∈ meshEdges m then (m, false)
    else
      (⟨m.verts,
        m.faces.flatMap (fun f =>
          if a ∈ f.vs ∧ b ∈ f.vs then
            (splitFaceAt f.vs a b).map (fun l => { f with vs := l })
          else [f])⟩, true)
  | _ => (m, false)

/-- `_process_intersecting_face(bm, face_index, face, iteration,
sharp_angle_threshold)`. -/
def _process_intersecting_face (m : BMesh) (face_index : ℕ) : BMesh × Bool :=
  let vs := (m.faces.getD face_index (mkFace [])).vs
  if vs = [] then (m, false)
  else if ¬faceHasSharpAngle m vs then (m, false)
  else
    let longest := _collect_longest_edges m vs
    if longest.length < 2 then (m, false)
    else
      let (m', mids) := _subdivide_edges_and_collect_midpoints m longest
      _connect_midpoints_if_possible m' mids

/-- `_collect_face_indices_with_neighbors(bm, intersection_indices)`:
every (valid, ≥3-edged) flagged face followed by its edge-adjacent
(valid, ≥3-edged) neighbours, first occurrence order, no repeats. -/
def _collect_face_indices_with_neighbors (m : BMesh) (idxs : List ℕ) : List ℕ :=
  (idxs.foldl (fun (acc : List ℕ) fi =>
    if fi < m.faces.length ∧ 3 ≤ ((m.faces.getD fi (mkFace [])).vs).length then
      let acc := if fi ∈ acc then acc else acc ++ [fi]
      (faceEdges ((m.faces.getD fi (mkFace [])).vs)).foldl (fun acc e =>
        (edgeLinkFaces m e).foldl (fun acc nb =>
          if 3 ≤ ((m.faces.getD nb (mkFace [])).vs).length ∧ nb ∉ acc
          then acc ++ [nb] else acc) acc) acc
    else acc) [])

/-- `_split_faces_once(bm, iteration)`: detect, expand with neighbours,
split every sharp face; reports whether any split happened. -/
def _split_faces_once (m : BMesh) : BMesh × Bool :=
  let face_indices := intersectingFaceIndices m
  let face_indices := _collect_face_indices_with_neighbors m face_indices
  face_indices.foldl (fun (acc : BMesh × Bool) fi =>
    if fi < acc.1.faces.length ∧ 3 ≤ ((acc.1.faces.getD fi (mkFace [])).vs).length then
      let (m', split) := _process_intersecting_face acc.1 fi
      (m', acc.2 || split)
    else acc) (m, false)

/-- The `while split:` split pass of `_clean_mesh_intersections`, with
the `splits >= 3` cap as remaining-round fuel.  Returns the mesh, an
early-clean flag, and one `splitRound` step per loop body executed. -/
def splitPassLoop : BMesh → ℕ → BMesh × Bool × List EngStep
  | m, 0 => (m, false, [])
  | m, r + 1 =>
    if intersectingFaceIndices m = [] then (m, true, [.splitRound])
    else
      let r1 := _split_faces_once m
      if r1.2 = true then
        let m2 := _triangulate_bmesh r1.1
        if intersectingFaceIndices m2 = [] then (m2, true, [.splitRound])
        else
          let r2 := splitPassLoop m2 r
          (r2.1, r2.2.1, .splitRound :: r2.2.2)
      else (r1.1, false, [.splitRound])

/-- The `for iteration in range(1, max_attempts + 1):` smoothing loop
of `_clean_mesh_intersections`, followed by the function's tail.  Each
iteration recomputes the intersecting faces; when none remain the
engine returns clean, and otherwise the source executes
`select_faces(face_indices, obj)` — two positional arguments for the
three-parameter `select_faces(face_indices, mesh, bm)` (main.py:380) —
which raises `TypeError` before the selection growing and
`vertices_smooth` calls are reached.  At loop exhaustion the tail
recomputes the intersections and returns; the
`_test_shrink_fatten(obj, mesh, bm)` fallback call there is commented
out in the source. -/
def smoothLoopAndTail : BMesh → ℕ → Except PyErr Bool × List EngStep
  | m, 0 =>
    if intersectingFaceIndices m = [] then (.ok true, [])
    else
      -- `#_test_shrink_fatten(obj, mesh, bm)` (commented out)
      (.ok (intersectingFaceIndices m = []), [])
  | m, _ + 1 =>
    if intersectingFaceIndices m = [] then (.ok true, [.smoothRound])
    else
      -- select_faces(face_indices, obj): TypeError (missing `bm`)
      (.error .typeError, [.smoothRound])

instance : DecidableEq (Except PyErr Bool) := fun a b =>
  match a, b with
  | .ok x, .ok y =>
    if h : x = y then .isTrue (by rw [h])
    else .isFalse (fun he => h (by cases he; rfl))
  | .error x, .error y =>
    if h : x = y then .isTrue (by rw [h])
    else .isFalse (fun he => h (by cases he; rfl))
  | .ok _, .error _ => .isFalse (fun he => Except.noConfusion he)
  | .error _, .ok _ => .isFalse (fun he => Except.noConfusion he)

/-- The record of one engine run. -/
structure EngineRun where
  result : Except PyErr Bool
  trace : List EngStep
  final : BMesh
  deriving Repr, DecidableEq

/-- `_clean_mesh_intersections(obj, max_attempts)`
(clean_intersections.py): reveal, clamp the attempt budget, triangulate,
run the split pass (3 rounds maximum), then the smoothing loop. -/
def _clean_mesh_intersections (m : BMesh) (max_attempts : ℕ) : EngineRun :=
  let a := max 1 max_attempts
  let sp := splitPassLoop (_triangulate_bmesh (meshReveal m)) 3
  if sp.2.1 = true then ⟨.ok true, sp.2.2, sp.1⟩
  else
    let sm := smoothLoopAndTail sp.1 a
    ⟨sm.1, sp.2.2 ++ sm.2, sp.1⟩

/-- `_clean_mesh_intersections_wrapper(obj, max_attempts)`: checksum
before and after the engine; `changed` compares the two checksums.  An
engine exception propagates. -/
def _clean_mesh_intersections_wrapper (m : BMesh) (max_attempts : ℕ) :
    Except PyErr (Bool × Bool) :=
  let checksum_before := mesh_checksum_fast m
  let run := _clean_mesh_intersections m max_attempts
  match run.result with
  | .error e => .error e
  | .ok clean =>
    .ok (mesh_checksum_fast run.final ≠ checksum_before, clean)

/-- The mesh state after the engine's triangulation and split pass (the
state the smoothing loop starts from). -/
def afterSplitPass (m : BMesh) : BMesh :=
  (splitPassLoop (_triangulate_bmesh (meshReveal m)) 3).1

/-! ### Shrink/fatten fallback (`_try_shrink_fatten`,
`_calculate_faces_bounding_box`, `_group_intersecting_bounding_boxes`)

The displacement applied by one attempt —
`bpy.ops.transform.shrink_fatten(value=d, use_even_offset=True)`
followed by `bpy.ops.mesh.vertices_smooth(factor=0.5, repeat=2)` — is a
host transform of the selected vertices along their local normals; it
is kept abstract as a coordinate-update parameter `transform d`,
restricted by construction to the selected (relevant) vertices, as the
host operators are. -/

/-- `_calculate_faces_bounding_box(faces)` (clean_intersections.py). -/
def _calculate_faces_bounding_box (m : BMesh) (faceIdxs : List ℕ) : Vec3 × Vec3 :=
  let coords := faceIdxs.flatMap (fun fi => ((m.faces.getD fi (mkFace [])).vs).map (vertCo m))
  match coords with
  | [] => ((0, 0, 0), (0, 0, 0))
  | c :: rest =>
    (rest.foldl (fun acc v => (min acc.1 v.1, min acc.2.1 v.2.1, min acc.2.2 v.2.2)) c,
     rest.foldl (fun acc v => (max acc.1 v.1, max acc.2.1 v.2.1, max acc.2.2 v.2.2)) c)

/-- `_bounding_boxes_intersect(box_a, box_b)` (clean_intersections.py):
the componentwise interval-overlap test (the same test the BVH model
uses). -/
def _bounding_boxes_intersect (boxA boxB : Vec3 × Vec3) : Bool :=
  boxesOverlap boxA boxB

/-- `_group_intersecting_bounding_boxes(boxes)` (clean_intersections.py):
connected components of the box-overlap graph, via the same
explicit-stack flood fill (that loop pushes neighbours unfiltered and
re-checks `visited` at pop; the filtered push of `floodFrom` visits the
identical component). -/
def _group_intersecting_bounding_boxes (boxes : List (Vec3 × Vec3)) : List (List ℕ) :=
  floodIslands
    (fun i => (List.range boxes.length).filter (fun j =>
      j ≠ i ∧ _bounding_boxes_intersect
        (boxes.getD i ((0, 0, 0), (0, 0, 0))) (boxes.getD j ((0, 0, 0), (0, 0, 0)))))
    (fun i => i < boxes.length) boxes.length

/-- Apply a coordinate update to the listed vertices only (host
transforms move only the selection). -/
def applyVertexTransform (m : BMesh) (rel : List ℕ) (f : ℕ → Vec3 → Vec3) : BMesh :=
  { m with verts := (List.range m.verts.length).map (fun i =>
      if i ∈ rel then f i (vertCo m i) else vertCo m i) }

/-- `_restore_saved_coords()`: write the snapshotted coordinates back.
The source defines this closure inside `_attempt`, but the call sites
(`return True` path aside, the restore-on-failure path) sit after the
success test, which always raises (see `sfAttempt`), so it is never
executed. -/
def restoreSavedCoords (m : BMesh) (saved : List (ℕ × Vec3)) : BMesh :=
  { m with verts := (List.range m.verts.length).map (fun i =>
      (saved.lookup i).getD (vertCo m i)) }

/-- `_attempt(distance_value)` inside `_try_shrink_fatten`
(clean_intersections.py:344-365): snapshot the relevant vertices,
displace and re-smooth them (the abstract host transform), then
evaluate the success test `if not (remaining & group_face_indices)`.
`remaining` is the `array.array("i")` that
`bmesh_get_intersecting_face_indices` returns (main.py:361-375) and
`group_face_indices` is a `set`; `array & set` raises `TypeError`
unconditionally, so every executed attempt raises at that line after
mutating the mesh — both the success branch and the restore-on-failure
branch (`_restore_saved_coords`) are unreachable.  The result pairs the
displaced mesh, exactly as the exception leaves it, with the raised
error. -/
def sfAttempt (transform : Q → ℕ → Vec3 → Vec3) (rel : List ℕ)
    (m : BMesh) (d : Q) : BMesh × PyErr :=
  (applyVertexTransform m rel (transform d), PyErr.typeError)

/-- The `for scale in (0.1, 0.2):` loop: for each scale, skip distances
with `abs(distance) <= 1e-6`; the first non-skipped attempt raises
inside `_attempt` and the exception propagates out of the loop, so at
most one attempt ever executes and `-distance` is never reached; when
every distance is skipped the loop falls through to `return False`.
Returns the mesh and the outcome, and the list of distances at which an
attempt actually executed. -/
def sfScaleLoop (attempt : BMesh → Q → BMesh × PyErr) (L : Q) :
    BMesh → List Q → (BMesh × Except PyErr Bool) × List Q
  | m, [] => ((m, Except.ok false), [])
  | m, s :: rest =>
    let d := L * s
    if qabs d ≤ (⟨1, 1000000⟩ : Q) then sfScaleLoop attempt L m rest
    else
      let r1 := attempt m d
      ((r1.1, Except.error r1.2), [d])

/-- `group_face_indices`: the indices of the (valid) faces of a
fallback group. -/
def sfGroup (m : BMesh) (faces : List ℕ) : List ℕ :=
  faces.filter (· < m.faces.length)

/-- `max_length`: the largest axis extent of the group's bounding box
(`extents = max_corner - min_corner`). -/
def sfMaxLength (m : BMesh) (faces : List ℕ) : Q :=
  let ext := vsub (_calculate_faces_bounding_box m (sfGroup m faces)).2
    (_calculate_faces_bounding_box m (sfGroup m faces)).1
  max ext.1 (max ext.2.1 ext.2.2)

/-- `relevant_vertices`: every vertex of a face of the group. -/
def sfRelevantVerts (m : BMesh) (faces : List ℕ) : List ℕ :=
  ((sfGroup m faces).flatMap (fun fi => (m.faces.getD fi (mkFace [])).vs)).dedup

/-- `_try_shrink_fatten(mesh, bm, faces)` (clean_intersections.py):
guard the group, compute the bounding-box extent, and run the scale
loop over `(0.1, 0.2)`.  On the guards' early returns it yields
`False` with the mesh untouched; otherwise the first non-skipped
attempt displaces the group's vertices and raises `TypeError` at the
`remaining & group_face_indices` success test, and the exception
propagates to the caller with the mesh left displaced. -/
def _try_shrink_fatten (transform : Q → ℕ → Vec3 → Vec3) (m : BMesh)
    (faces : List ℕ) : BMesh × Except PyErr Bool × List Q :=
  if faces = [] then (m, Except.ok false, [])
  else if sfGroup m faces = [] then (m, Except.ok false, [])
  else if sfMaxLength m faces ≤ 0 then (m, Except.ok false, [])
  else if sfRelevantVerts m faces = [] then (m, Except.ok false, [])
  else
    let r := sfScaleLoop (sfAttempt transform (sfRelevantVerts m faces))
      (sfMaxLength m faces) m [⟨1, 10⟩, ⟨1, 5⟩]
    (r.1.1, r.1.2, r.2)

/-! ### Per-object cached defect counts (`main.py`)

Blender ID properties hold Python values; the two kinds this code
stores are embedded as `PyVal` (`int`s, and strings of hex digits —
`hexdigest()` results and the sentinel `"0"`).  Wall-clock instants are
exact rationals passed explicitly (`time.time()`). -/

inductive PyVal where
  | pInt (n : ℤ)
  | pStr (s : List ℕ)
  deriving Repr, DecidableEq

/-- Python `int(v)`: an `int` passes through; a string parses when all
its characters are decimal digits (a hex digit `a`–`f` raises
`ValueError`). -/
def pyToInt : PyVal → Option ℤ
  | .pInt n => some n
  | .pStr s =>
    if s ≠ [] ∧ s.all (· < 10) then some (s.foldl (fun acc d => 10 * acc + (d : ℤ)) 0)
    else none

/-- A mesh object with the ID properties `main.py` uses: the checksum
cache slot (`t4p_mesh_checksum_cache_value` / `_time`) and the two
analysis slots. -/
structure PyObject where
  mesh : BMesh
  csCacheVal : Option PyVal := none
  csCacheTime : Option Q := none
  nmCount : Option PyVal := none
  nmChecksum : Option PyVal := none
  siCount : Option PyVal := none
  siChecksum : Option PyVal := none
  deriving Repr, DecidableEq

/-- `_clear_cached_mesh_checksum(obj)`. -/
def _clear_cached_mesh_checksum (obj : PyObject) : PyObject :=
  { obj with csCacheVal := none, csCacheTime := none }

/-- `_set_cached_mesh_checksum(obj, checksum)`: stores
`int(checksum)` and `time.time()`; when `int()` raises (a hexdigest
containing a letter), the `except` clause clears the cache instead. -/
def _set_cached_mesh_checksum (obj : PyObject) (checksum : PyVal) (now : Q) : PyObject :=
  match pyToInt checksum with
  | some n => { obj with csCacheVal := some (.pInt n), csCacheTime := some now }
  | none => _clear_cached_mesh_checksum obj

/-- `_CHECKSUM_CACHE_DURATION_SECONDS = 5 * 60`. -/
def checksumCacheDuration : Q := ⟨300, 1⟩

/-- `_get_cached_mesh_checksum(obj)`: returns the cached checksum while
both keys exist, the entry is younger than the TTL and the stored value
parses as `int`; expired or unreadable entries are cleared. -/
def _get_cached_mesh_checksum (obj : PyObject) (now : Q) : Option ℤ × PyObject :=
  match obj.csCacheVal, obj.csCacheTime with
  | some v, some t =>
    if checksumCacheDuration < now - t then (none, _clear_cached_mesh_checksum obj)
    else
      match pyToInt v with
      | some n => (some n, obj)
      | none => (none, _clear_cached_mesh_checksum obj)
  | _, _ => (none, obj)

/-- `calculate_object_mesh_checksum(obj)`: serve the cached checksum
when valid, otherwise compute `mesh_checksum_fast` and try to cache
it.  (Objects in this embedding are always mesh objects with data.) -/
def calculate_object_mesh_checksum (obj : PyObject) (now : Q) : Option PyVal × PyObject :=
  let r := _get_cached_mesh_checksum obj now
  match r.1 with
  | some n => (some (.pInt n), r.2)
  | none =>
    let checksum := PyVal.pStr (mesh_checksum_fast r.2.mesh)
    (some checksum, _set_cached_mesh_checksum r.2 checksum now)

/-- `set_object_analysis_stats(obj, non_manifold_count=…,
intersection_count=…)`. -/
def set_object_analysis_stats (obj : PyObject) (non_manifold_count : Option ℤ)
    (intersection_count : Option ℤ) (now : Q) : PyObject :=
  if non_manifold_count.isSome ∨ intersection_count.isSome then
    let r := calculate_object_mesh_checksum obj now
    let stored := r.1.getD (.pStr [0])
    let obj := r.2
    let obj := match non_manifold_count with
      | some n => { obj with nmCount := some (.pInt n), nmChecksum := some stored }
      | none => obj
    match intersection_count with
    | some n => { obj with siCount := some (.pInt n), siChecksum := some stored }
    | none => obj
  else obj

/-- `_get_validated_object_stat(obj, count_key, checksum_key)`: the
stored count is returned only when present, the stored checksum is
neither missing nor `"0"`, the checksum `calculate_object_mesh_checksum`
yields now compares equal to the stored one, and the count parses. -/
def _get_validated_object_stat (obj : PyObject) (stored_count stored_checksum : Option PyVal)
    (now : Q) : Option ℤ :=
  match stored_count, stored_checksum with
  | some cnt, some cks =>
    if cks = .pStr [0] then none
    else
      match (calculate_object_mesh_checksum obj now).1 with
      | none => none
      | some cur => if cur = cks then pyToInt cnt else none
  | _, _ => none

/-- `get_cached_non_manifold_count(obj)`. -/
def get_cached_non_manifold_count (obj : PyObject) (now : Q) : Option ℤ :=
  _get_validated_object_stat obj obj.nmCount obj.nmChecksum now

/-- `get_cached_self_intersection_count(obj)`. -/
def get_cached_self_intersection_count (obj : PyObject) (now : Q) : Option ℤ :=
  _get_validated_object_stat obj obj.siCount obj.siChecksum now

/-! ### Concrete test inputs -/

/-- Two mutually piercing triangles with disjoint vertex sets and every
interior angle at least 15°: the edge from `(1,1,-1)` to `(2,1,1)`
crosses the plane `z = 0` at `(3/2,1,0)`, inside the first triangle. -/
def crossTriMesh : BMesh :=
  ⟨[(0, 0, 0), (4, 0, 0), (0, 4, 0), (1, 1, -1), (2, 1, 1), (1, 2, 1)],
   [mkFace [0, 1, 2], mkFace [3, 4, 5]]⟩

/-- Two triangles sharing vertex `0`, with overlapping bounding boxes. -/
def sharedVertMesh : BMesh :=
  ⟨[(0, 0, 0), (4, 0, 0), (0, 4, 0), (2, 2, 1), (1, 0, 1)],
   [mkFace [0, 1, 2], mkFace [0, 3, 4]]⟩

/-- Two disconnected triangles of three vertices each: two tied largest
vertex islands. -/
def twoFragMesh : BMesh :=
  ⟨[(0, 0, 0), (1, 0, 0), (0, 1, 0), (5, 0, 0), (6, 0, 0), (5, 1, 0)],
   [mkFace [0, 1, 2], mkFace [3, 4, 5]]⟩

/-- The manifold cube of the spec's scenario: 8 vertices, 6 quad faces,
consistently wound outward. -/
def cubeQuadMesh : BMesh :=
  ⟨[(-1, -1, -1), (1, -1, -1), (1, 1, -1), (-1, 1, -1),
    (-1, -1, 1), (1, -1, 1), (1, 1, 1), (-1, 1, 1)],
   [mkFace [0, 3, 2, 1], mkFace [4, 5, 6, 7], mkFace [0, 1, 5, 4],
    mkFace [1, 2, 6, 5], mkFace [2, 3, 7, 6], mkFace [3, 0, 4, 7]]⟩

/-- The same cube already triangulated (8 vertices, 12 triangles). -/
def cubeTriMesh : BMesh := _triangulate_bmesh cubeQuadMesh

/-- A triangle with one coordinate `c`; used to probe the checksum's
quantization behaviour. -/
def probeTri (c : Q) : BMesh := ⟨[(c, 0, 0), (1, 0, 0), (0, 1, 0)], [mkFace [0, 1, 2]]⟩

/-- A triangle whose checksum hexdigest
(`46744910573353156806116539249665`) happens to consist of decimal
digits only, so `int(hexdigest)` succeeds and the checksum cache can
actually store it. -/
def magicTriMesh : BMesh := probeTri ⟨4695622, 1000⟩

/-- The same object after a mutation that moves the probed vertex. -/
def magicTriMeshMoved : BMesh := probeTri ⟨5, 1000⟩

/-- A host displacement transform that moves nothing (used to
instantiate the abstract shrink/fatten transform at concrete inputs). -/
def idTransform : Q → ℕ → Vec3 → Vec3 := fun _ _ co => co

/-- The object after its checksum is first computed (and cached) at
`t = 0`. -/
def magicObjCached : PyObject :=
  (calculate_object_mesh_checksum { mesh := magicTriMesh } 0).2

/-- …then the non-manifold count 7 is stored at `t = 10` (the analysis
checksum is served from the cache, as an `int`)… -/
def magicObjStats : PyObject :=
  set_object_analysis_stats magicObjCached (some 7) none 10

/-- …and then the mesh is mutated without touching the ID properties. -/
def staleCacheObj : PyObject := { magicObjStats with mesh := magicTriMeshMoved }

/-! ### Partition properties of the flood fill -/

/-- Invariant of the inner worklist loop: with sufficient fuel it
returns the prior visited set extended by a duplicate-free list of
newly visited eligible elements, appends exactly that list to the
island, and leaves no eligible stack element unvisited. -/
theorem floodFrom_spec (adj : ℕ → List ℕ) (valid : ℕ → Bool) (n : ℕ)
    (Hvalid : ∀ x, valid x = true → x < n)
    (Hadj : ∀ x, (adj x).length ≤ n) :
    ∀ (fuel : ℕ) (stack : List ℕ) (visited : Finset ℕ) (island : List ℕ),
      stack.length + (n - (visited.filter (· < n)).card) * (n + 1) ≤ fuel →
      ∃ new : List ℕ,
        floodFrom adj valid fuel stack visited island =
          (visited ∪ new.toFinset, island ++ new) ∧
        new.Nodup ∧
        (∀ x ∈ new, valid x = true ∧ x ∉ visited) ∧
        (∀ x ∈ stack, valid x = true → x ∈ visited ∨ x ∈ new) := by
  intro fuel
  induction fuel with
  | zero =>
    intro stack visited island h
    have hstack : stack = [] := by
      cases stack with
      | nil => rfl
      | cons a l => simp at h
    subst hstack
    exact ⟨[], by simp [floodFrom], by simp, by simp, by simp⟩
  | succ fuel ih =>
    intro stack visited island h
    match stack with
    | [] => exact ⟨[], by simp [floodFrom], by simp, by simp, by simp⟩
    | x :: rest =>
      by_cases hskip : x ∈ visited ∨ valid x = false
      · have hrec : floodFrom adj valid (fuel + 1) (x :: rest) visited island =
            floodFrom adj valid fuel rest visited island := by
          rw [floodFrom, if_pos hskip]
        obtain ⟨new, h1, h2, h3, h4⟩ := ih rest visited island (by simp at h ⊢; omega)
        refine ⟨new, hrec ▸ h1, h2, h3, ?_⟩
        intro y hy hv
        rcases List.mem_cons.mp hy with rfl | hy'
        · rcases hskip with hin | hfalse
          · exact Or.inl hin
          · rw [hv] at hfalse; cases hfalse
        · exact h4 y hy' hv
      · push_neg at hskip
        obtain ⟨hxvis, hxvalid⟩ := hskip
        have hxvalid : valid x = true := by
          cases hval : valid x with
          | false => exact absurd hval hxvalid
          | true => rfl
        have hxn : x < n := Hvalid x hxvalid
        have hrec : floodFrom adj valid (fuel + 1) (x :: rest) visited island =
            floodFrom adj valid fuel
              (((adj x).filter (fun y => valid y ∧ y ∉ insert x visited)) ++ rest)
              (insert x visited) (island ++ [x]) := by
          rw [floodFrom, if_neg (by push_neg; exact ⟨hxvis, by simp [hxvalid]⟩)]
        -- cardinality bookkeeping for the fuel bound
        have hfilt : (insert x visited).filter (· < n) =
            insert x (visited.filter (· < n)) := by
          rw [Finset.filter_insert, if_pos hxn]
        have hxnotin : x ∉ visited.filter (· < n) := by
          intro hmem
          exact hxvis (Finset.mem_filter.mp hmem).1
        have hcard : ((insert x visited).filter (· < n)).card =
            (visited.filter (· < n)).card + 1 := by
          rw [hfilt, Finset.card_insert_of_not_mem hxnotin]
        have hsub : insert x (visited.filter (· < n)) ⊆ Finset.range n := by
          intro y hy
          rcases Finset.mem_insert.mp hy with rfl | hy'
          · exact Finset.mem_range.mpr hxn
          · exact Finset.mem_range.mpr (Finset.mem_filter.mp hy').2
        have hcardle : (visited.filter (· < n)).card + 1 ≤ n := by
          have := Finset.card_le_card hsub
          rw [Finset.card_insert_of_not_mem hxnotin, Finset.card_range] at this
          exact this
        have hmulsplit :
            (n - (visited.filter (· < n)).card) * (n + 1) =
              (n - ((visited.filter (· < n)).card + 1)) * (n + 1) + (n + 1) := by
          rw [show n - (visited.filter (· < n)).card =
              (n - ((visited.filter (· < n)).card + 1)) + 1 by omega]
          ring
        have hflen :
            (((adj x).filter (fun y => valid y ∧ y ∉ insert x visited)) ++ rest).length ≤
              n + rest.length := by
          rw [List.length_append]
          have := List.length_filter_le
            (fun y => decide (valid y = true ∧ y ∉ insert x visited)) (adj x)
          have h2 := Hadj x
          omega
        have hfuel :
            (((adj x).filter (fun y => valid y ∧ y ∉ insert x visited)) ++ rest).length +
              (n - ((insert x visited).filter (· < n)).card) * (n + 1) ≤ fuel := by
          rw [hcard]
          simp only [List.length_cons] at h
          rw [hmulsplit] at h
          omega
        obtain ⟨new', h1, h2, h3, h4⟩ := ih _ (insert x visited) (island ++ [x]) hfuel
        refine ⟨x :: new', ?_, ?_, ?_, ?_⟩
        · rw [hrec, h1]
          have e1 : insert x visited ∪ new'.toFinset = visited ∪ (x :: new').toFinset := by
            rw [List.toFinset_cons, Finset.union_insert, Finset.insert_union]
          have e2 : island ++ [x] ++ new' = island ++ x :: new' := by simp
          rw [e1, e2]
        · refine List.nodup_cons.mpr ⟨?_, h2⟩
          intro hxin
          exact (h3 x hxin).2 (Finset.mem_insert_self x visited)
        · intro y hy
          rcases List.mem_cons.mp hy with rfl | hy'
          · exact ⟨hxvalid, hxvis⟩
          · obtain ⟨hv, hni⟩ := h3 y hy'
            exact ⟨hv, fun hmem => hni (Finset.mem_insert_of_mem hmem)⟩
        · intro y hy hv
          rcases List.mem_cons.mp hy with rfl | hy'
          · exact Or.inr (List.mem_cons_self y new')
          · have : y ∈ ((adj x).filter (fun y => valid y ∧ y ∉ insert x visited)) ++ rest :=
              List.mem_append_right _ hy'
            rcases h4 y this hv with hin | hnew
            · rcases Finset.mem_insert.mp hin with rfl | hvis
              · exact Or.inr (List.mem_cons_self y new')
              · exact Or.inl hvis
            · exact Or.inr (List.mem_cons_of_mem x hnew)

/-- Invariant of the outer seeding loop: the produced islands are
duplicate-free overall, consist of eligible, previously unvisited
elements, cover every eligible seed, and are all nonempty. -/
theorem floodIslandsGo_spec (adj : ℕ → List ℕ) (valid : ℕ → Bool) (n : ℕ)
    (Hvalid : ∀ x, valid x = true → x < n)
    (Hadj : ∀ x, (adj x).length ≤ n) :
    ∀ (seeds : List ℕ) (visited : Finset ℕ),
      (floodIslandsGo adj valid ((n + 1) * (n + 1)) seeds visited).flatten.Nodup ∧
      (∀ x ∈ (floodIslandsGo adj valid ((n + 1) * (n + 1)) seeds visited).flatten,
        valid x = true ∧ x ∉ visited) ∧
      (∀ x ∈ seeds, valid x = true →
        x ∈ visited ∨ x ∈ (floodIslandsGo adj valid ((n + 1) * (n + 1)) seeds visited).flatten) ∧
      (∀ I ∈ floodIslandsGo adj valid ((n + 1) * (n + 1)) seeds visited, I ≠ []) := by
  intro seeds
  induction seeds with
  | nil =>
    intro visited
    exact ⟨by simp [floodIslandsGo], by simp [floodIslandsGo],
      by simp [floodIslandsGo], by simp [floodIslandsGo]⟩
  | cons x seeds ih =>
    intro visited
    by_cases hx : valid x = true ∧ x ∉ visited
    · have hfuel : (([x] : List ℕ)).length +
          (n - (visited.filter (· < n)).card) * (n + 1) ≤ (n + 1) * (n + 1) := by
        have h1 : (n - (visited.filter (· < n)).card) * (n + 1) ≤ n * (n + 1) :=
          Nat.mul_le_mul_right _ (Nat.sub_le n _)
        have h2 : (n + 1) * (n + 1) = n * (n + 1) + (n + 1) := by ring
        simp only [List.length_cons, List.length_nil]
        omega
      obtain ⟨new, h1, h2, h3, h4⟩ :=
        floodFrom_spec adj valid n Hvalid Hadj ((n + 1) * (n + 1)) [x] visited [] hfuel
      have hxnew : x ∈ new := by
        rcases h4 x (List.mem_cons_self x []) hx.1 with hin | hnew
        · exact absurd hin hx.2
        · exact hnew
      have hnewne : new ≠ [] := by
        intro hempty
        rw [hempty] at hxnew
        cases hxnew
      have hgo : floodIslandsGo adj valid ((n + 1) * (n + 1)) (x :: seeds) visited =
          new :: floodIslandsGo adj valid ((n + 1) * (n + 1)) seeds (visited ∪ new.toFinset) := by
        rw [floodIslandsGo, if_pos hx]
        simp only [h1, List.nil_append]
        rw [if_neg hnewne]
      obtain ⟨g1, g2, g3, g4⟩ := ih (visited ∪ new.toFinset)
      rw [hgo]
      refine ⟨?_, ?_, ?_, ?_⟩
      · rw [List.flatten_cons]
        refine List.nodup_append.mpr ⟨h2, g1, ?_⟩
        intro a ha hb
        exact (g2 a hb).2 (Finset.mem_union_right _ (List.mem_toFinset.mpr ha))
      · intro y hy
        rw [List.flatten_cons] at hy
        rcases List.mem_append.mp hy with hy' | hy'
        · exact h3 y hy'
        · obtain ⟨hv, hni⟩ := g2 y hy'
          exact ⟨hv, fun hmem => hni (Finset.mem_union_left _ hmem)⟩
      · intro y hy hv
        rw [List.flatten_cons]
        rcases List.mem_cons.mp hy with rfl | hy'
        · exact Or.inr (List.mem_append_left _ hxnew)
        · rcases g3 y hy' hv with hin | hjoin
          · rcases Finset.mem_union.mp hin with hvis | hnew
            · exact Or.inl hvis
            · exact Or.inr (List.mem_append_left _ (List.mem_toFinset.mp hnew))
          · exact Or.inr (List.mem_append_right _ hjoin)
      · intro I hI
        rcases List.mem_cons.mp hI with rfl | hI'
        · exact hnewne
        · exact g4 I hI'
    · have hgo : floodIslandsGo adj valid ((n + 1) * (n + 1)) (x :: seeds) visited =
          floodIslandsGo adj valid ((n + 1) * (n + 1)) seeds visited := by
        rw [floodIslandsGo, if_neg hx]
      obtain ⟨g1, g2, g3, g4⟩ := ih visited
      rw [hgo]
      refine ⟨g1, g2, ?_, g4⟩
      intro y hy hv
      rcases List.mem_cons.mp hy with rfl | hy'
      · rcases Decidable.not_and_iff_or_not.mp hx with hnv | hvis
        · exact absurd hv hnv
        · exact Or.inl (Decidable.not_not.mp hvis)
      · exact g3 y hy' hv

/-- The islands of `floodIslands` partition the eligible elements. -/
theorem floodIslands_partition (adj : ℕ → List ℕ) (valid : ℕ → Bool) (n : ℕ)
    (Hvalid : ∀ x, valid x = true → x < n)
    (Hadj : ∀ x, (adj x).length ≤ n) :
    (floodIslands adj valid n).flatten.Nodup ∧
      (∀ x, x ∈ (floodIslands adj valid n).flatten ↔ valid x = true) ∧
      (∀ I ∈ floodIslands adj valid n, I ≠ []) := by
  obtain ⟨g1, g2, g3, g4⟩ := floodIslandsGo_spec adj valid n Hvalid Hadj (List.range n) ∅
  refine ⟨g1, ?_, g4⟩
  intro x
  constructor
  · intro hx
    exact (g2 x hx).1
  · intro hv
    rcases g3 x (List.mem_range.mpr (Hvalid x hv)) hv with hin | hjoin
    · cases hin
    · exact hjoin

/-- Vertex-island instantiation of the partition property. -/
theorem vertex_islands_partition (m : BMesh) :
    (_get_mesh_vertex_islands m).flatten.Nodup ∧
      (∀ x, x ∈ (_get_mesh_vertex_islands m).flatten ↔ x < m.verts.length) ∧
      (∀ I ∈ _get_mesh_vertex_islands m, I ≠ []) := by
  obtain ⟨h1, h2, h3⟩ := floodIslands_partition (vertAdj m) (vertValid m) m.verts.length
    (fun x hx => by simpa [vertValid] using hx)
    (fun x => (List.length_filter_le _ _).trans (by simp))
  unfold _get_mesh_vertex_islands
  refine ⟨h1, fun x => ?_, h3⟩
  rw [h2 x]
  simp [vertValid]

/-- Face-island instantiation of the partition property, over the
selected visible region. -/
theorem face_islands_partition (m : BMesh) :
    (_get_selected_visible_face_islands m).flatten.Nodup ∧
      (∀ i, i ∈ (_get_selected_visible_face_islands m).flatten ↔
        (i < m.faces.length ∧ (m.faces.getD i (mkFace [])).select = true ∧
          (m.faces.getD i (mkFace [])).hide = false)) ∧
      (∀ I ∈ _get_selected_visible_face_islands m, I ≠ []) := by
  obtain ⟨h1, h2, h3⟩ := floodIslands_partition (faceAdj m) (faceSelValid m) m.faces.length
    (fun i hi => by
      have := of_decide_eq_true hi
      exact this.1)
    (fun i => (List.length_filter_le _ _).trans (by simp))
  unfold _get_selected_visible_face_islands
  refine ⟨h1, fun i => ?_, h3⟩
  rw [h2 i]
  simp [faceSelValid]

/-- An element of two islands of a duplicate-free family pins them to
the same island. -/
theorem mem_flatten_unique {L : List (List ℕ)} (h : L.flatten.Nodup) {I J : List ℕ}
    (hI : I ∈ L) (hJ : J ∈ L) {v : ℕ} (hvI : v ∈ I) (hvJ : v ∈ J) : I = J := by
  induction L with
  | nil => cases hI
  | cons K rest ih =>
    rw [List.flatten_cons] at h
    obtain ⟨hK, hrest, hdisj⟩ := List.nodup_append.mp h
    rcases List.mem_cons.mp hI with rfl | hI'
    · rcases List.mem_cons.mp hJ with rfl | hJ'
      · rfl
      · exact absurd (List.mem_flatten.mpr ⟨J, hJ', hvJ⟩) (hdisj hvI)
    · rcases List.mem_cons.mp hJ with rfl | hJ'
      · exact absurd (List.mem_flatten.mpr ⟨I, hI', hvI⟩) (hdisj hvJ)
      · exact ih hrest hI' hJ'

/-- A list member is at most the `foldr max 0` of the list. -/
theorem le_foldr_max {l : List ℕ} {x : ℕ} (h : x ∈ l) : x ≤ l.foldr max 0 := by
  induction l with
  | nil => cases h
  | cons a l ih =>
    rcases List.mem_cons.mp h with rfl | h'
    · exact le_max_left _ _
    · exact (ih h').trans (le_max_right _ _)

/-- The deletion rule of `_delete_small_vertex_islands`: an island's
vertices land in `verts_to_delete` exactly when the island is below the
threshold AND below the largest island; the largest island and an only
island are never deleted; a kept island below the threshold has the
maximal size. -/
theorem delete_small_islands_rule (m : BMesh) (t : ℕ) :
    ∀ I ∈ _get_mesh_vertex_islands m,
      ((∀ v ∈ I, v ∈ smallIslandDeleteSet m t) ↔
        (I.length < t ∧ I.length < maxIslandSize m)) ∧
      (I.length = maxIslandSize m → ∀ v ∈ I, v ∉ smallIslandDeleteSet m t) ∧
      (_get_mesh_vertex_islands m = [I] → ∀ v ∈ I, v ∉ smallIslandDeleteSet m t) ∧
      (I.length < t → ¬(I.length < t ∧ I.length < maxIslandSize m) →
        I.length = maxIslandSize m) := by
  intro I hI
  obtain ⟨hnodup, _, hne⟩ := vertex_islands_partition m
  have hmax : I.length ≤ maxIslandSize m :=
    le_foldr_max (List.mem_map_of_mem List.length hI)
  have key : ∀ v ∈ I, v ∈ smallIslandDeleteSet m t →
      I.length < t ∧ I.length < maxIslandSize m := by
    intro v hv hvdel
    obtain ⟨J, hJmem, hvJ⟩ := List.mem_flatten.mp hvdel
    obtain ⟨hJisl, hJcond⟩ := List.mem_filter.mp hJmem
    have hIJ : I = J := mem_flatten_unique hnodup hI hJisl hv hvJ
    rw [hIJ]
    exact of_decide_eq_true hJcond
  refine ⟨⟨?_, ?_⟩, ?_, ?_, ?_⟩
  · intro hall
    obtain ⟨v, hv⟩ := List.exists_mem_of_ne_nil I (hne I hI)
    exact key v hv (hall v hv)
  · intro hcond v hv
    exact List.mem_flatten.mpr
      ⟨I, List.mem_filter.mpr ⟨hI, decide_eq_true hcond⟩, hv⟩
  · intro hmaxeq v hv hvdel
    have := (key v hv hvdel).2
    rw [hmaxeq] at this
    exact lt_irrefl _ this
  · intro honly v hv hvdel
    have hlt := (key v hv hvdel).2
    have : maxIslandSize m = I.length := by
      unfold maxIslandSize
      rw [honly]
      simp
    rw [this] at hlt
    exact lt_irrefl _ hlt
  · intro hlt hncond
    omega

/-! ### Helper lemmas for the engine and fallback theorems -/

theorem bmesh_eq (a b : BMesh) (h1 : a.verts = b.verts) (h2 : a.faces = b.faces) :
    a = b := by
  cases a; cases b
  simp only at h1 h2
  rw [h1, h2]

theorem vertCo_getElem (m : BMesh) (i : ℕ) (h : i < m.verts.length) :
    vertCo m i = m.verts[i] := by
  simp only [vertCo, List.getD]
  simp [List.getElem?_eq_getElem h]

theorem getD_range_map {α : Type} (n : ℕ) (g : ℕ → α) (i : ℕ) (d : α) (h : i < n) :
    ((List.range n).map g).getD i d = g i := by
  rw [List.getD_eq_getElem ((List.range n).map g) d (by simpa using h)]
  simp

theorem range_map_getD {α : Type} (l : List α) (d : α) :
    (List.range l.length).map (fun i => l.getD i d) = l := by
  apply List.ext_getElem
  · simp
  · intro i h1 h2
    simp only [List.getElem_map, List.getElem_range]
    rw [List.getD_eq_getElem l d h2]

theorem lookup_map_self (g : ℕ → Vec3) (i : ℕ) : ∀ (rel : List ℕ),
    (rel.map (fun v => (v, g v))).lookup i = if i ∈ rel then some (g i) else none := by
  intro rel
  induction rel with
  | nil => simp
  | cons v rest ih =>
    simp only [List.map_cons, List.lookup]
    by_cases h : i = v
    · subst h
      simp
    · rw [show (i == v) = false from beq_false_of_ne h]
      simp only [ih]
      by_cases h2 : i ∈ rest <;> simp [h2, h]

theorem splitPassLoop_trace (r : ℕ) : ∀ m : BMesh,
    (splitPassLoop m r).2.2.length ≤ r ∧
      ∀ s ∈ (splitPassLoop m r).2.2, s = EngStep.splitRound := by
  induction r with
  | zero => intro m; simp [splitPassLoop]
  | succ r ih =>
    intro m
    rw [splitPassLoop]
    by_cases h1 : intersectingFaceIndices m = []
    · rw [if_pos h1]
      exact ⟨by simp, fun s hs => by simpa using hs⟩
    · rw [if_neg h1]
      by_cases h2 : (_split_faces_once m).2 = true
      · rw [if_pos h2]
        by_cases h3 : intersectingFaceIndices (_triangulate_bmesh (_split_faces_once m).1) = []
        · rw [if_pos h3]
          exact ⟨by simp, fun s hs => by simpa using hs⟩
        · rw [if_neg h3]
          obtain ⟨hl, hm⟩ := ih (_triangulate_bmesh (_split_faces_once m).1)
          refine ⟨by simpa using Nat.succ_le_succ hl, ?_⟩
          intro s hs
          rcases List.mem_cons.mp hs with rfl | hs'
          · rfl
          · exact hm s hs'
      · rw [if_neg h2]
        exact ⟨by simp, fun s hs => by simpa using hs⟩

theorem smoothLoopAndTail_trace (a : ℕ) (m : BMesh) :
    (smoothLoopAndTail m a).2.length ≤ 1 ∧
      ∀ s ∈ (smoothLoopAndTail m a).2, s = EngStep.smoothRound := by
  match a with
  | 0 =>
    rw [smoothLoopAndTail]
    by_cases h : intersectingFaceIndices m = [] <;> simp [h]
  | n + 1 =>
    rw [smoothLoopAndTail]
    by_cases h : intersectingFaceIndices m = [] <;> simp [h]

theorem engine_trace_props (m : BMesh) (a : ℕ) :
    (_clean_mesh_intersections m a).trace.count EngStep.splitRound ≤ 3 ∧
      (_clean_mesh_intersections m a).trace.count EngStep.smoothRound ≤ 1 ∧
      (_clean_mesh_intersections m a).trace.length ≤ 4 ∧
      EngStep.shrinkFattenAttempt ∉ (_clean_mesh_intersections m a).trace := by
  have hcount : ∀ (l : List EngStep) (x y : EngStep), (∀ s ∈ l, s = x) → y ≠ x →
      l.count y = 0 ∧ l.count x ≤ l.length := by
    intro l x y hl hxy
    exact ⟨List.count_eq_zero.mpr (fun h => hxy (hl _ h)), List.count_le_length _ _⟩
  obtain ⟨hl1, hm1⟩ := splitPassLoop_trace 3 (_triangulate_bmesh (meshReveal m))
  obtain ⟨hl2, hm2⟩ :=
    smoothLoopAndTail_trace (max 1 a) (splitPassLoop (_triangulate_bmesh (meshReveal m)) 3).1
  rw [_clean_mesh_intersections]
  by_cases hcl : (splitPassLoop (_triangulate_bmesh (meshReveal m)) 3).2.1 = true
  · rw [if_pos hcl]
    obtain ⟨hz1, hc1⟩ := hcount _ EngStep.splitRound EngStep.smoothRound hm1 (by simp)
    dsimp only
    refine ⟨hc1.trans hl1, by simp [hz1], by omega, ?_⟩
    intro h
    cases hm1 _ h
  · rw [if_neg hcl]
    obtain ⟨hz1, hc1⟩ := hcount _ EngStep.splitRound EngStep.smoothRound hm1 (by simp)
    obtain ⟨hz2, hc2⟩ := hcount _ EngStep.smoothRound EngStep.splitRound hm2 (by simp)
    dsimp only
    simp only [List.count_append, List.length_append, List.mem_append]
    refine ⟨by omega, by omega, by omega, ?_⟩
    rintro (h | h)
    · cases hm1 _ h
    · cases hm2 _ h

theorem applyVertexTransform_faces (m : BMesh) (rel : List ℕ) (f : ℕ → Vec3 → Vec3) :
    (applyVertexTransform m rel f).faces = m.faces := rfl

/-- Case analysis of `_try_shrink_fatten`: either no attempt executes
(a guard fires, or both scale distances fall below `1e-6`) and the
fallback returns `False` with the mesh untouched, or exactly one
attempt executes — at the `10%` distance, or at the `20%` distance with
the `10%` one skipped — and the fallback raises `TypeError` with the
group's vertices left displaced (never restored). -/
theorem try_shrink_fatten_cases (transform : Q → ℕ → Vec3 → Vec3) (m : BMesh)
    (faces : List ℕ) :
    ((_try_shrink_fatten transform m faces).2.2 = [] ∧
      (_try_shrink_fatten transform m faces).2.1 = Except.ok false ∧
      (_try_shrink_fatten transform m faces).1 = m) ∨
    (∃ d, (d = sfMaxLength m faces * ⟨1, 10⟩ ∨ d = sfMaxLength m faces * ⟨1, 5⟩) ∧
      (_try_shrink_fatten transform m faces).2.2 = [d] ∧
      (_try_shrink_fatten transform m faces).2.1 = Except.error PyErr.typeError ∧
      (_try_shrink_fatten transform m faces).1 =
        applyVertexTransform m (sfRelevantVerts m faces) (transform d)) := by
  rw [_try_shrink_fatten]
  by_cases h1 : faces = []
  · rw [if_pos h1]; exact Or.inl ⟨rfl, rfl, rfl⟩
  · rw [if_neg h1]
    by_cases h2 : sfGroup m faces = []
    · rw [if_pos h2]; exact Or.inl ⟨rfl, rfl, rfl⟩
    · rw [if_neg h2]
      by_cases h3 : sfMaxLength m faces ≤ 0
      · rw [if_pos h3]; exact Or.inl ⟨rfl, rfl, rfl⟩
      · rw [if_neg h3]
        by_cases h4 : sfRelevantVerts m faces = []
        · rw [if_pos h4]; exact Or.inl ⟨rfl, rfl, rfl⟩
        · rw [if_neg h4]
          dsimp only
          simp only [sfScaleLoop]
          by_cases h5 : qabs (sfMaxLength m faces * ⟨1, 10⟩) ≤ (⟨1, 1000000⟩ : Q)
          · rw [if_pos h5]
            by_cases h6 : qabs (sfMaxLength m faces * ⟨1, 5⟩) ≤ (⟨1, 1000000⟩ : Q)
            · rw [if_pos h6]
              exact Or.inl ⟨rfl, rfl, rfl⟩
            · rw [if_neg h6]
              exact Or.inr ⟨_, Or.inr rfl, rfl, rfl, rfl⟩
          · rw [if_neg h5]
            exact Or.inr ⟨_, Or.inl rfl, rfl, rfl, rfl⟩

theorem try_shrink_fatten_sublist (transform : Q → ℕ → Vec3 → Vec3) (m : BMesh)
    (faces : List ℕ) :
    List.Sublist (_try_shrink_fatten transform m faces).2.2
      [sfMaxLength m faces * ⟨1, 10⟩, -(sfMaxLength m faces * ⟨1, 10⟩),
       sfMaxLength m faces * ⟨1, 5⟩, -(sfMaxLength m faces * ⟨1, 5⟩)] := by
  rcases try_shrink_fatten_cases transform m faces with ⟨h, -, -⟩ | ⟨d, hd, h, -, -⟩
  · rw [h]; exact List.nil_sublist _
  · rw [h]
    rcases hd with rfl | rfl
    · exact (List.nil_sublist _).cons₂ _
    · exact (((List.nil_sublist _).cons₂ _).cons _).cons _

theorem try_shrink_fatten_at_most_one (transform : Q → ℕ → Vec3 → Vec3) (m : BMesh)
    (faces : List ℕ) :
    (_try_shrink_fatten transform m faces).2.2.length ≤ 1 := by
  rcases try_shrink_fatten_cases transform m faces with ⟨h, -, -⟩ | ⟨d, -, h, -, -⟩ <;>
    simp [h]

theorem try_shrink_fatten_raises (transform : Q → ℕ → Vec3 → Vec3) (m : BMesh)
    (faces : List ℕ) (d : Q) :
    (_try_shrink_fatten transform m faces).2.2 = [d] →
      (_try_shrink_fatten transform m faces).2.1 = Except.error PyErr.typeError ∧
      (_try_shrink_fatten transform m faces).1 =
        applyVertexTransform m (sfRelevantVerts m faces) (transform d) := by
  intro hd
  rcases try_shrink_fatten_cases transform m faces with ⟨h, -, -⟩ | ⟨e, -, h, h1, h2⟩
  · rw [h] at hd
    exact List.noConfusion hd
  · rw [h] at hd
    injection hd with he _
    subst he
    exact ⟨h1, h2⟩

theorem try_shrink_fatten_skip_id (transform : Q → ℕ → Vec3 → Vec3) (m : BMesh)
    (faces : List ℕ) :
    (_try_shrink_fatten transform m faces).2.2 = [] →
      (_try_shrink_fatten transform m faces).2.1 = Except.ok false ∧
      (_try_shrink_fatten transform m faces).1 = m := by
  intro hd
  rcases try_shrink_fatten_cases transform m faces with ⟨-, h1, h2⟩ | ⟨e, -, h, -, -⟩
  · exact ⟨h1, h2⟩
  · rw [h] at hd
    exact List.noConfusion hd

/-- A face whose every box-overlap candidate (against any tessellated
triangle of the mesh) shares a vertex with it is never reported by the
self-overlap query. -/
theorem detector_excludes_shared_only (m : BMesh) (fi : ℕ)
    (h : ∀ t ∈ meshTris m, ∀ u ∈ meshTris m,
      t.1 = fi ∨ u.1 = fi →
      boxesOverlap (triBox m t.2) (triBox m u.2) = true →
      trisShareVert t.2 u.2 = true) :
    fi ∉ intersectingFaceIndices m := by
  intro hmem
  obtain ⟨-, hany⟩ := List.mem_filter.mp hmem
  obtain ⟨p, hp, hfi⟩ := List.any_eq_true.mp hany
  rw [bvhSelfOverlap] at hp
  obtain ⟨i, hi, hmap⟩ := List.mem_flatMap.mp hp
  obtain ⟨j, hj, hpe⟩ := List.mem_map.mp hmap
  obtain ⟨hjr, hcond⟩ := List.mem_filter.mp hj
  obtain ⟨hij, hacc⟩ := of_decide_eq_true hcond
  have hacc' := of_decide_eq_true hacc
  obtain ⟨hbox, hnshare, -⟩ := hacc'
  have hti : (meshTris m).getD i ((0 : ℕ), (0, 0, 0)) ∈ meshTris m := by
    rw [List.getD_eq_getElem _ _ (by simpa using List.mem_range.mp hi)]
    apply List.getElem_mem
  have htj : (meshTris m).getD j ((0 : ℕ), (0, 0, 0)) ∈ meshTris m := by
    rw [List.getD_eq_getElem _ _ (by simpa using List.mem_range.mp hjr)]
    apply List.getElem_mem
  have hfi' := of_decide_eq_true hfi
  rw [← hpe] at hfi'
  exact hnshare (h _ hti _ htj hfi' hbox)

/-- The validation rule of `_get_validated_object_stat`: the stored
count comes back exactly when it exists, the stored checksum is neither
missing nor `"0"`, the checksum `calculate_object_mesh_checksum` yields
now compares equal to it, and the stored count parses as an `int`. -/
theorem validated_stat_iff (obj : PyObject) (sc scs : Option PyVal) (now : Q) (c : ℤ) :
    _get_validated_object_stat obj sc scs now = some c ↔
      ∃ cnt cks, sc = some cnt ∧ scs = some cks ∧ cks ≠ PyVal.pStr [0] ∧
        (calculate_object_mesh_checksum obj now).1 = some cks ∧ pyToInt cnt = some c := by
  rcases sc with - | cnt
  · simp [_get_validated_object_stat]
  rcases scs with - | cks
  · simp [_get_validated_object_stat]
  have hdef : _get_validated_object_stat obj (some cnt) (some cks) now =
      (if cks = PyVal.pStr [0] then none
       else
        (match (calculate_object_mesh_checksum obj now).1 with
         | none => none
         | some cur => if cur = cks then pyToInt cnt else none)) := rfl
  rw [hdef]
  by_cases hz : cks = PyVal.pStr [0]
  · rw [if_pos hz]
    simp only [hz]
    constructor
    · intro h; cases h
    · rintro ⟨cnt', cks', h1, h2, h3, -, -⟩
      cases h2
      exact absurd rfl h3
  · rw [if_neg hz]
    rcases hcur : (calculate_object_mesh_checksum obj now).1 with - | cur
    · constructor
      · intro h; exact Option.noConfusion h
      · rintro ⟨cnt', cks', h1, h2, h3, h4, h5⟩
        exact Option.noConfusion h4
    · show (if cur = cks then pyToInt cnt else none) = some c ↔ _
      by_cases heq : cur = cks
      · rw [if_pos heq]
        constructor
        · intro h
          exact ⟨cnt, cks, rfl, rfl, hz, by rw [heq], h⟩
        · rintro ⟨cnt', cks', h1, h2, h3, h4, h5⟩
          cases h1; cases h2
          exact h5
      · rw [if_neg heq]
        constructor
        · intro h; exact Option.noConfusion h
        · rintro ⟨cnt', cks', h1, h2, h3, h4, h5⟩
          cases h1; cases h2
          exact absurd (by injection h4) heq

/-- A checksum cache entry strictly older than the TTL is discarded and
cleared, never served. -/
theorem cached_checksum_ttl (obj : PyObject) (v : PyVal) (t now : Q)
    (h1 : obj.csCacheVal = some v) (h2 : obj.csCacheTime = some t)
    (h3 : checksumCacheDuration < now - t) :
    _get_cached_mesh_checksum obj now = (none, _clear_cached_mesh_checksum obj) := by
  rw [_get_cached_mesh_checksum, h1, h2]
  simp only [if_pos h3]

/-! ### Claim theorems -/

/-- C1: the claim says the self-intersection repair engine runs its
smoothing loop to completion and returns a `(changed, clean)` result
without raising whenever intersections remain after the split pass.
The code instead raises `TypeError`: `_clean_mesh_intersections` calls
`select_faces(face_indices, obj)` with two positional arguments while
`select_faces(face_indices, mesh, bm)` takes three.  At the concrete
mesh of two piercing vertex-disjoint triangles (which survives the
split pass) with `max_attempts = 1`, the engine and its wrapper both
raise instead of reporting. -/
theorem c1_smooth_loop_raises_type_error :
    intersectingFaceIndices (afterSplitPass crossTriMesh) ≠ [] ∧
      (_clean_mesh_intersections crossTriMesh 1).result =
        Except.error PyErr.typeError ∧
      _clean_mesh_intersections_wrapper crossTriMesh 1 =
        Except.error PyErr.typeError := by
  refine ⟨by decide, by decide, ?_⟩
  rw [_clean_mesh_intersections_wrapper]
  rw [show (_clean_mesh_intersections crossTriMesh 1).result =
    Except.error PyErr.typeError by decide]

/-- C2 (counterexample): the claim says that on a mesh whose
intersections survive the smoothing loop the engine performs the
shrink/fatten fallback.  On the concrete run below the engine ends
(by raising) with intersections still present, yet its trace contains
no shrink/fatten attempt — the fallback call at
clean_intersections.py:494 is commented out. -/
theorem c2_fallback_never_runs_counterexample :
    intersectingFaceIndices (_clean_mesh_intersections crossTriMesh 1).final ≠ [] ∧
      EngStep.shrinkFattenAttempt ∉ (_clean_mesh_intersections crossTriMesh 1).trace ∧
      (_clean_mesh_intersections crossTriMesh 1).result ≠ Except.ok true := by
  exact ⟨by decide, by decide, by decide⟩

/-- C2 (amended): the engine never invokes the shrink/fatten fallback
(the call at clean_intersections.py:494 is commented out), and the
fallback implementation could not behave as specified even when
invoked directly: the distances at which an attempt executes are drawn
in order from `+10%, −10%, +20%, −20%` of the group's largest
bounding-box extent (sub-`1e-6` distances skipped), but at most one
attempt per group ever executes, because each executed attempt's
success test applies `&` to an `array.array("i")` and a `set`, which
raises `TypeError` unconditionally — so the executed attempt leaves
the group's vertices displaced and raises, observing no success and
restoring no snapshot, while a fallback in which every distance is
skipped returns `False` with the mesh untouched. -/
theorem c2_fallback_disabled_attempt_raises :
    (∀ (m : BMesh) (a : ℕ),
      EngStep.shrinkFattenAttempt ∉ (_clean_mesh_intersections m a).trace) ∧
    (∀ (transform : Q → ℕ → Vec3 → Vec3) (m : BMesh) (faces : List ℕ),
      List.Sublist (_try_shrink_fatten transform m faces).2.2
        [sfMaxLength m faces * ⟨1, 10⟩, -(sfMaxLength m faces * ⟨1, 10⟩),
         sfMaxLength m faces * ⟨1, 5⟩, -(sfMaxLength m faces * ⟨1, 5⟩)] ∧
      (_try_shrink_fatten transform m faces).2.2.length ≤ 1) ∧
    (∀ (transform : Q → ℕ → Vec3 → Vec3) (m : BMesh) (faces : List ℕ) (d : Q),
      (_try_shrink_fatten transform m faces).2.2 = [d] →
        (_try_shrink_fatten transform m faces).2.1 = Except.error PyErr.typeError ∧
        (_try_shrink_fatten transform m faces).1 =
          applyVertexTransform m (sfRelevantVerts m faces) (transform d)) ∧
    (∀ (transform : Q → ℕ → Vec3 → Vec3) (m : BMesh) (faces : List ℕ),
      (_try_shrink_fatten transform m faces).2.2 = [] →
        (_try_shrink_fatten transform m faces).2.1 = Except.ok false ∧
        (_try_shrink_fatten transform m faces).1 = m) := by
  refine ⟨fun m a => (engine_trace_props m a).2.2.2,
    fun transform m faces =>
      ⟨try_shrink_fatten_sublist transform m faces,
        try_shrink_fatten_at_most_one transform m faces⟩,
    fun transform m faces d => try_shrink_fatten_raises transform m faces d,
    fun transform m faces => try_shrink_fatten_skip_id transform m faces⟩

/-- Witness for C2's amended theorem at concrete inputs: on the
piercing-triangles mesh's two faces the `10%` attempt executes, the
fallback raises `TypeError`, and the returned mesh is the displaced
(never restored) one. -/
theorem c2_fallback_disabled_witness :
    EngStep.shrinkFattenAttempt ∉ (_clean_mesh_intersections crossTriMesh 1).trace ∧
      (_try_shrink_fatten idTransform crossTriMesh [0, 1]).2.2 =
        [sfMaxLength crossTriMesh [0, 1] * ⟨1, 10⟩] ∧
      ((_try_shrink_fatten idTransform crossTriMesh [0, 1]).2.1 =
          Except.error PyErr.typeError ∧
        (_try_shrink_fatten idTransform crossTriMesh [0, 1]).1 =
          applyVertexTransform crossTriMesh (sfRelevantVerts crossTriMesh [0, 1])
            (idTransform (sfMaxLength crossTriMesh [0, 1] * ⟨1, 10⟩))) :=
  ⟨c2_fallback_disabled_attempt_raises.1 crossTriMesh 1, by decide,
    c2_fallback_disabled_attempt_raises.2.2.1 idTransform crossTriMesh [0, 1]
      (sfMaxLength crossTriMesh [0, 1] * ⟨1, 10⟩) (by decide)⟩

/-- C3: the intersection detector never reports a face whose only
box-overlap candidates share a vertex with it — the host's
`tree.overlap(tree)` self-query (modelled from the spec) skips
shared-vertex triangle pairs; in particular, on the mesh of two
triangles sharing vertex 0 with overlapping bounding boxes, the
detector reports nothing at all. -/
theorem c3_adjacency_exclusion (m : BMesh) (fi : ℕ)
    (h : ∀ t ∈ meshTris m, ∀ u ∈ meshTris m,
      t.1 = fi ∨ u.1 = fi →
      boxesOverlap (triBox m t.2) (triBox m u.2) = true →
      trisShareVert t.2 u.2 = true) :
    fi ∉ (bmesh_get_intersecting_face_indices m).2 ∧
      fi ∉ (bmesh_check_self_intersect_object m).2 ∧
      intersectingFaceIndices sharedVertMesh = [] ∧
      boxesOverlap (triBox sharedVertMesh (0, 1, 2)) (triBox sharedVertMesh (0, 3, 4)) =
        true := by
  have hm := detector_excludes_shared_only m fi h
  exact ⟨hm, hm, by decide, by decide⟩

/-- Witness for C3 at the shared-vertex mesh: the hypothesis (every
box-overlap candidate pair touching face 0 shares a vertex) holds and
face 0 is not reported. -/
theorem c3_adjacency_exclusion_witness :
    (∀ t ∈ meshTris sharedVertMesh, ∀ u ∈ meshTris sharedVertMesh,
      t.1 = 0 ∨ u.1 = 0 →
      boxesOverlap (triBox sharedVertMesh t.2) (triBox sharedVertMesh u.2) = true →
      trisShareVert t.2 u.2 = true) ∧
    (0 ∉ (bmesh_get_intersecting_face_indices sharedVertMesh).2 ∧
      0 ∉ (bmesh_check_self_intersect_object sharedVertMesh).2 ∧
      intersectingFaceIndices sharedVertMesh = [] ∧
      boxesOverlap (triBox sharedVertMesh (0, 1, 2)) (triBox sharedVertMesh (0, 3, 4)) =
        true) :=
  ⟨by decide, c3_adjacency_exclusion sharedVertMesh 0 (by decide)⟩

/-- C4 (counterexample): the claim says the 8-vertex, 6-quad cube comes
out of non-manifold repair with `clean = true` and `changed = false`.
The pipeline triangulates unconditionally, so the checksum changes:
the run reports `(changed, clean, worse) = (true, true, false)`, not
`changed = false`. -/
theorem c4_quad_cube_counterexample :
    _clean_object_non_manifold cubeQuadMesh ⟨1, 1000⟩ 100 ≠ (false, true, false) ∧
      _clean_object_non_manifold cubeQuadMesh ⟨1, 1000⟩ 100 = (true, true, false) := by
  have h : _clean_object_non_manifold cubeQuadMesh ⟨1, 1000⟩ 100 = (true, true, false) := by
    decide
  exact ⟨by rw [h]; decide, h⟩

/-- C4 (amended): the quad cube reports `clean = true, changed = true,
worse = false` (the unconditional triangulation changes the content
checksum), while the already-triangulated cube (8 vertices, 12
triangles) reports `clean = true, changed = false, worse = false`. -/
theorem c4_cube_scenario_outcomes :
    _clean_object_non_manifold cubeQuadMesh ⟨1, 1000⟩ 100 = (true, true, false) ∧
      _clean_object_non_manifold cubeTriMesh ⟨1, 1000⟩ 100 = (false, true, false) := by
  exact ⟨by decide, by decide⟩

/-- C5 (counterexample): the spec's invariant says a remaining island of
size below the threshold must have been the unique largest island at
deletion time.  With two tied largest islands of 3 vertices each and
threshold 100, both remain after `_delete_small_vertex_islands`, and
the remaining island `[0,1,2]` (size 3 < 100) was not the unique
largest — the distinct island `[3,4,5]` is not smaller. -/
theorem c5_unique_largest_counterexample :
    ([0, 1, 2] : List ℕ) ∈
        _get_mesh_vertex_islands (_delete_small_vertex_islands twoFragMesh 100) ∧
      ([0, 1, 2] : List ℕ).length < 100 ∧
      ([3, 4, 5] : List ℕ) ∈ _get_mesh_vertex_islands twoFragMesh ∧
      ([3, 4, 5] : List ℕ) ≠ [0, 1, 2] ∧
      ¬([3, 4, 5] : List ℕ).length < ([0, 1, 2] : List ℕ).length := by
  exact ⟨by decide, by decide, by decide, by decide, by decide⟩

/-- C5 (amended): in `_delete_small_vertex_islands` an island's vertices
are deleted exactly when the island is strictly below the threshold AND
strictly below the largest island's size; the largest island and an
only island are never deleted; and a kept island below the threshold
has the (possibly tied) largest size. -/
theorem c5_island_deletion_rule (m : BMesh) (t : ℕ) :
    ∀ I ∈ _get_mesh_vertex_islands m,
      ((∀ v ∈ I, v ∈ smallIslandDeleteSet m t) ↔
        (I.length < t ∧ I.length < maxIslandSize m)) ∧
      (I.length = maxIslandSize m → ∀ v ∈ I, v ∉ smallIslandDeleteSet m t) ∧
      (_get_mesh_vertex_islands m = [I] → ∀ v ∈ I, v ∉ smallIslandDeleteSet m t) ∧
      (I.length < t → ¬(I.length < t ∧ I.length < maxIslandSize m) →
        I.length = maxIslandSize m) := by
  exact delete_small_islands_rule m t

/-- Witness for C5's amended theorem: island `[0,1,2]` of the
two-fragment mesh, threshold 100. -/
theorem c5_island_deletion_rule_witness :
    (([0, 1, 2] : List ℕ) ∈ _get_mesh_vertex_islands twoFragMesh) ∧
      (((∀ v ∈ ([0, 1, 2] : List ℕ), v ∈ smallIslandDeleteSet twoFragMesh 100) ↔
        (([0, 1, 2] : List ℕ).length < 100 ∧
          ([0, 1, 2] : List ℕ).length < maxIslandSize twoFragMesh)) ∧
      (([0, 1, 2] : List ℕ).length = maxIslandSize twoFragMesh →
        ∀ v ∈ ([0, 1, 2] : List ℕ), v ∉ smallIslandDeleteSet twoFragMesh 100) ∧
      (_get_mesh_vertex_islands twoFragMesh = [[0, 1, 2]] →
        ∀ v ∈ ([0, 1, 2] : List ℕ), v ∉ smallIslandDeleteSet twoFragMesh 100) ∧
      (([0, 1, 2] : List ℕ).length < 100 →
        ¬(([0, 1, 2] : List ℕ).length < 100 ∧
          ([0, 1, 2] : List ℕ).length < maxIslandSize twoFragMesh) →
        ([0, 1, 2] : List ℕ).length = maxIslandSize twoFragMesh)) :=
  ⟨by decide, c5_island_deletion_rule twoFragMesh 100 [0, 1, 2] (by decide)⟩

/-- C6 (counterexample): the claim says perturbing a coordinate by more
than `0.0005` changes the checksum.  Moving a coordinate from `0.0006`
to `0.0014` — a change of `0.0008 > 0.0005` — leaves the checksum
unchanged, because both quantize (round half to even at 3 decimals) to
the same integer 1. -/
theorem c6_epsilon_counterexample :
    ((⟨5, 10000⟩ : Q) < (⟨14, 10000⟩ : Q) - ⟨6, 10000⟩) ∧
      probeTri ⟨14, 10000⟩ ≠ probeTri ⟨6, 10000⟩ ∧
      mesh_checksum_fast (probeTri ⟨6, 10000⟩) =
        mesh_checksum_fast (probeTri ⟨14, 10000⟩) := by
  exact ⟨by decide, by decide, by decide⟩

/-- C6 (amended): the checksum is exactly a function of the quantized
content: a perturbation that leaves every rounded (3-decimal,
round-half-even) coordinate unchanged never changes the checksum, and a
perturbation of `0.0002 < 0.0005` (`0.0004` to `0.0006`, which crosses
the rounding boundary at `0.0005`) does change it. -/
theorem c6_quantization_rule (m m2 : BMesh) (h1 : m2.faces = m.faces)
    (h2 : quantizedCoords m2 = quantizedCoords m) :
    mesh_checksum_fast m2 = mesh_checksum_fast m ∧
      ((⟨6, 10000⟩ : Q) - (⟨4, 10000⟩ : Q) < ⟨5, 10000⟩) ∧
      mesh_checksum_fast (probeTri ⟨4, 10000⟩) ≠
        mesh_checksum_fast (probeTri ⟨6, 10000⟩) := by
  refine ⟨?_, by decide, by decide⟩
  rw [mesh_checksum_fast, mesh_checksum_fast, h1, h2]

/-- Witness for C6's amended theorem: the `0.0006` and `0.0014` probe
triangles have equal quantized content, hence equal checksums. -/
theorem c6_quantization_rule_witness :
    (probeTri ⟨14, 10000⟩).faces = (probeTri ⟨6, 10000⟩).faces ∧
      quantizedCoords (probeTri ⟨14, 10000⟩) = quantizedCoords (probeTri ⟨6, 10000⟩) ∧
      (mesh_checksum_fast (probeTri ⟨14, 10000⟩) =
          mesh_checksum_fast (probeTri ⟨6, 10000⟩) ∧
        ((⟨6, 10000⟩ : Q) - (⟨4, 10000⟩ : Q) < ⟨5, 10000⟩) ∧
        mesh_checksum_fast (probeTri ⟨4, 10000⟩) ≠
          mesh_checksum_fast (probeTri ⟨6, 10000⟩)) :=
  ⟨by decide, by decide,
    c6_quantization_rule (probeTri ⟨6, 10000⟩) (probeTri ⟨14, 10000⟩)
      (by decide) (by decide)⟩

/-- C7: for every mesh and every `max_attempts ≥ 1` the engine executes
at most 3 split-pass rounds and at most `max_attempts` smoothing
rounds, its whole trace is bounded by `3 + max_attempts` (a function of
`max_attempts` alone, independent of the mesh), and a fallback group
receives at most 4 shrink/fatten displacement attempts. -/
theorem c7_engine_round_bounds (m : BMesh) (a : ℕ)
    (transform : Q → ℕ → Vec3 → Vec3) (faces : List ℕ) (h : 1 ≤ a) :
    (_clean_mesh_intersections m a).trace.count EngStep.splitRound ≤ 3 ∧
      (_clean_mesh_intersections m a).trace.count EngStep.smoothRound ≤ a ∧
      (_clean_mesh_intersections m a).trace.length ≤ 3 + a ∧
      ((_try_shrink_fatten transform m faces).2.2).length ≤ 4 := by
  obtain ⟨hc1, hc2, hl, -⟩ := engine_trace_props m a
  refine ⟨hc1, hc2.trans h, by omega, ?_⟩
  have hone := try_shrink_fatten_at_most_one transform m faces
  omega

/-- Witness for C7 at the piercing-triangles mesh with
`max_attempts = 1`. -/
theorem c7_engine_round_bounds_witness :
    1 ≤ 1 ∧
      ((_clean_mesh_intersections crossTriMesh 1).trace.count EngStep.splitRound ≤ 3 ∧
        (_clean_mesh_intersections crossTriMesh 1).trace.count EngStep.smoothRound ≤ 1 ∧
        (_clean_mesh_intersections crossTriMesh 1).trace.length ≤ 3 + 1 ∧
        ((_try_shrink_fatten idTransform crossTriMesh [0]).2.2).length ≤ 4) :=
  ⟨le_refl 1, c7_engine_round_bounds crossTriMesh 1 idTransform [0] (le_refl 1)⟩

/-- C8 (counterexample): the claim says a stored defect count is
returned only when recomputing the checksum at call time yields exactly
the stored checksum.  For the probe triangle whose hexdigest is all
decimal digits, `int(hexdigest)` succeeds, so the checksum cache stores
it; after the stats are recorded through the cache and the mesh is then
mutated, the count is still served within the 5-minute TTL even though
recomputing the checksum of the current mesh no longer matches the
stored value. -/
theorem c8_stale_cached_checksum_counterexample :
    get_cached_non_manifold_count staleCacheObj 100 = some 7 ∧
      staleCacheObj.mesh ≠ magicTriMesh ∧
      staleCacheObj.nmChecksum ≠
        some (PyVal.pStr (mesh_checksum_fast staleCacheObj.mesh)) ∧
      staleCacheObj.nmChecksum ≠
        some (PyVal.pStr (mesh_checksum_fast magicTriMesh)) := by
  exact ⟨by decide, by decide, by decide, by decide⟩

/-- C8 (amended): a stored count is returned exactly when the stored
checksum is present, not the sentinel `"0"`, compares equal to the
value `calculate_object_mesh_checksum` yields at call time — which may
be a cached checksum younger than the 5-minute TTL rather than a fresh
recomputation — and the stored count parses; and a cached checksum
strictly older than the TTL is discarded (cleared), never reused. -/
theorem c8_cache_validation_rule (obj : PyObject) (now : Q) :
    (∀ c : ℤ, get_cached_non_manifold_count obj now = some c ↔
      ∃ cnt cks, obj.nmCount = some cnt ∧ obj.nmChecksum = some cks ∧
        cks ≠ PyVal.pStr [0] ∧
        (calculate_object_mesh_checksum obj now).1 = some cks ∧
        pyToInt cnt = some c) ∧
    (∀ c : ℤ, get_cached_self_intersection_count obj now = some c ↔
      ∃ cnt cks, obj.siCount = some cnt ∧ obj.siChecksum = some cks ∧
        cks ≠ PyVal.pStr [0] ∧
        (calculate_object_mesh_checksum obj now).1 = some cks ∧
        pyToInt cnt = some c) ∧
    (∀ (v : PyVal) (t : Q), obj.csCacheVal = some v → obj.csCacheTime = some t →
      checksumCacheDuration < now - t →
      _get_cached_mesh_checksum obj now = (none, _clear_cached_mesh_checksum obj)) := by
  refine ⟨fun c => ?_, fun c => ?_, fun v t h1 h2 h3 => cached_checksum_ttl obj v t now h1 h2 h3⟩
  · exact validated_stat_iff obj obj.nmCount obj.nmChecksum now c
  · exact validated_stat_iff obj obj.siCount obj.siChecksum now c

/-- Witness for C8's amended theorem: the expired cache entry of the
probe object is cleared at `t = 400`, and the stale-object lookup
instance of the validation rule holds. -/
theorem c8_cache_validation_rule_witness :
    _get_cached_mesh_checksum magicObjCached 400 =
      (none, _clear_cached_mesh_checksum magicObjCached) :=
  (c8_cache_validation_rule magicObjCached 400).2.2
    (PyVal.pInt 46744910573353156806116539249665) 0
    (by decide) (by decide) (by decide)

/-- C9: the islands returned by `_get_mesh_vertex_islands` and
`_get_selected_visible_face_islands` partition the flood-filled element
set — every vertex (respectively every selected, visible face) appears
in exactly one island, with no duplicates and no omissions. -/
theorem c9_island_partition (m : BMesh) :
    ((_get_mesh_vertex_islands m).flatten.Nodup ∧
      (∀ x, x ∈ (_get_mesh_vertex_islands m).flatten ↔ x < m.verts.length)) ∧
      ((_get_selected_visible_face_islands m).flatten.Nodup ∧
        (∀ i, i ∈ (_get_selected_visible_face_islands m).flatten ↔
          (i < m.faces.length ∧ (m.faces.getD i (mkFace [])).select = true ∧
            (m.faces.getD i (mkFace [])).hide = false))) := by
  obtain ⟨a1, a2, -⟩ := vertex_islands_partition m
  obtain ⟨b1, b2, -⟩ := face_islands_partition m
  exact ⟨⟨a1, a2⟩, ⟨b1, b2⟩⟩

/-- C10: intersection detection never mutates its input — both entry
points build the BVH and run the overlap query on a copy, return the
input bmesh untouched, and repeated detection without intervening
mutation returns the identical set (the two entry points also agree). -/
theorem c10_detector_preserves_input (bm : BMesh) :
    (bmesh_get_intersecting_face_indices bm).1 = bm ∧
      (bmesh_check_self_intersect_object bm).1 = bm ∧
      (bmesh_get_intersecting_face_indices
          (bmesh_get_intersecting_face_indices bm).1).2 =
        (bmesh_get_intersecting_face_indices bm).2 ∧
      (bmesh_check_self_intersect_object bm).2 =
        (bmesh_get_intersecting_face_indices bm).2 :=
  ⟨rfl, rfl, rfl, rfl⟩

end T4P
